import Mathlib

/-!
# Verification of the `wenyan-mcp` publishing pipeline

Shallow embedding of the repository's two source modules:

* `src/publish.ts` — access-token fetch, material upload, image upload,
  image relocation, draft publication;
* `src/index.ts`  — the MCP protocol dispatcher (theme selection, the
  `publish_article` / `list_themes` tool handlers, session routing).

Remote services (WeChat endpoints, the filesystem, the DOM library) are
modelled as explicit oracle functions; every remote interaction performed
by the code is recorded in an explicit call trace, and the diagnostic log
(`log(...)` in both modules, a `try { appendFileSync } catch { ... }`
wrapper) is modelled by threading a log state together with an environment
`Nat → Bool` telling whether the n-th file append fails.

JavaScript semantics is embedded explicitly where it matters:
* `||` / truthiness on strings (`""`, `null`, `undefined` are falsy),
* `??` (nullish coalescing, `""` is NOT nullish),
* `String.prototype.replace` with a string pattern replaces the FIRST
  occurrence of the pattern anywhere in the string (`replaceFirst` below),
* `String.prototype.includes`, `String.prototype.startsWith`,
* Node's `path.basename` / `path.extname` on POSIX paths.
-/

namespace Wenyan

/-! ## JavaScript string primitives -/

/-- JS truthiness of a `string | null | undefined` value:
`null`, `undefined` and `""` are falsy. -/
def jsTruthy : Option String → Bool
  | none => false
  | some s => !s.isEmpty

/-- JS `a || b` for `a : string | undefined`, `b : string`:
returns `a` when truthy, else `b`. -/
def jsOrOpt (a : Option String) (b : String) : String :=
  match a with
  | none => b
  | some s => if s.isEmpty then b else s

/-- JS `errcode` truthiness: an absent code or the number `0` is falsy. -/
def jsTruthyCode : Option Int → Bool
  | none => false
  | some c => c != 0

/-- Embedding of `String.prototype.startsWith` (and of Lean-side prefix
tests on embedded strings): list-of-characters prefix test. -/
def strStartsWith (s p : String) : Bool := p.data.isPrefixOf s.data

/-- Substring occurrence test on character lists. -/
def isSubListOf (sub : List Char) : List Char → Bool
  | [] => sub.isEmpty
  | c :: rest => sub.isPrefixOf (c :: rest) || isSubListOf sub rest

/-- Embedding of `String.prototype.includes`: substring occurrence. -/
def strIncludes (s sub : String) : Bool := isSubListOf sub.data s.data

/-- Embedding of `String.prototype.replace(pat, rep)` with a *string*
pattern: replaces only the FIRST occurrence of `pat`, anywhere in the
string; if `pat` does not occur the string is returned unchanged
(`replace` with an empty pattern prepends `rep`). -/
def replaceFirst (pat rep : List Char) : List Char → List Char
  | [] => if pat.isEmpty then rep else []
  | c :: rest =>
    if pat.isPrefixOf (c :: rest) then rep ++ (c :: rest).drop pat.length
    else c :: replaceFirst pat rep rest

/-- `String.prototype.replace(pat, rep)` lifted to `String`. -/
def replaceFirstS (s pat rep : String) : String :=
  ⟨replaceFirst pat.data rep.data s.data⟩

/-- Embedding of `url.split("?")[0]`: the portion before the first `?`
(the whole string when no `?` occurs). -/
def beforeQuery (s : String) : String := ⟨s.data.takeWhile (· ≠ '?')⟩

/-- Node `path.basename` (POSIX): strip trailing slashes, then keep the
portion after the last remaining slash. -/
def pathBasename (p : String) : String :=
  let trimmed := (p.data.reverse.dropWhile (· = '/')).reverse
  ⟨(trimmed.reverse.takeWhile (· ≠ '/')).reverse⟩

/-- Index of the last occurrence of `c`, if any. -/
def lastIdxOf (c : Char) (l : List Char) : Option Nat :=
  match l.reverse.findIdx? (· = c) with
  | none => none
  | some j => some (l.length - 1 - j)

/-- Node `path.extname` applied to a bare file name (the source always
applies it to a `path.basename` result): the suffix starting at the last
dot, except that a dot in first position (hidden files) and the special
name `..` yield no extension. -/
def pathExtname (b : String) : String :=
  match lastIdxOf '.' b.data with
  | none => ""
  | some i =>
    if i = 0 then ""
    else if b.data = ['.', '.'] then ""
    else ⟨b.data.drop i⟩

/-- The `http://` pattern of the URL normalization in `uploadMaterial`. -/
def httpPat : List Char := "http://".data

/-- The `https://` replacement of the URL normalization in `uploadMaterial`. -/
def httpsRep : List Char := "https://".data

/-! ## Data model: remote responses, errors, call trace, log state -/

/-- JSON body of the token-exchange endpoint (`cgi-bin/token`). -/
structure TokenResponse where
  access_token : Option String
  errcode : Option Int
  errmsg : String
deriving DecidableEq, Repr

/-- JSON body of the material-upload endpoint (`cgi-bin/material/add_material`). -/
structure UploadJson where
  errcode : Option Int
  errmsg : String
  media_id : String
  url : String
deriving DecidableEq, Repr

/-- HTTP-level view of a material-upload response (`response.ok`,
`response.status`, `response.text()`, `response.json()`). -/
structure UploadHttp where
  ok : Bool
  status : Nat
  bodyText : String
  json : UploadJson
deriving DecidableEq, Repr

/-- HTTP-level view of a remote image download (`fetch(imageUrl)`):
`response.ok`, `response.body` non-null, and the downloaded bytes
(represented opaquely as a string). -/
structure ImgHttp where
  ok : Bool
  hasBody : Bool
  bytes : String
deriving DecidableEq, Repr

/-- JSON body of the draft-creation endpoint (`cgi-bin/draft/add`). -/
structure DraftResponse where
  media_id : Option String
  errcode : Option Int
  errmsg : String
deriving DecidableEq, Repr

/-- One remote interaction performed by the pipeline, in program order:
token exchange, material upload (multipart POST), remote image download,
local file read (`fileFromPath`), draft creation. -/
inductive ExtCall where
  | tokenCall (appid secret : String)
  | materialCall (ty : String) (bytes : String) (fileName : String) (accessToken : String)
  | imageFetch (url : String)
  | fileRead (path : String)
  | draftCall (accessToken title content thumbMediaId : String)
deriving DecidableEq, Repr

/-- Is this call a draft-creation request? -/
def ExtCall.isDraft : ExtCall → Bool
  | .draftCall _ _ _ _ => true
  | _ => false

/-- The errors thrown by the two source modules (each `throw new Error(...)`
site gets one constructor, named after its role). -/
inductive PubErr where
  /-- `获取 Access Token 失败，错误码：...` — token endpoint returned an error code. -/
  | tokenApiError (code : Int) (msg : String)
  /-- `获取 Access Token 失败: ...` — token response had neither token nor code. -/
  | tokenUnexpected
  /-- `上传失败: status text` — non-success HTTP status on material upload. -/
  | uploadHttpError (status : Nat) (body : String)
  /-- `上传失败，错误码：...` — material endpoint returned an error code. -/
  | uploadApiError (code : Int) (msg : String)
  /-- `Failed to download image from URL: ...`. -/
  | imageFetchError (url : String)
  /-- `你必须指定一张封面图...` — no cover media id resolvable. -/
  | missingCover
  /-- `上传到公众号草稿失败，错误码：...` — draft endpoint returned an error code. -/
  | draftApiError (code : Int) (msg : String)
  /-- `上传到公众号草稿失败: ...` — draft response had neither media id nor code. -/
  | draftUnexpected
  /-- `Invalid theme ID` (dispatcher). -/
  | invalidTheme
  /-- `Unknown tool` (dispatcher). -/
  | unknownTool
deriving DecidableEq, Repr

/-- World state threaded through the pipeline: how many log events have
fired, the contents of the `wenyan-mcp.log` file, the console output, and
the trace of remote interactions. Log messages are modelled by their
static text (the real messages also carry a timestamp and inspected
values, which are diagnostic only). -/
structure WorldSt where
  logIndex : Nat
  logFile : List String
  console : List String
  calls : List ExtCall
deriving DecidableEq, Repr

/-- The initial world. -/
def WorldSt.init : WorldSt := ⟨0, [], [], []⟩

/-- Log environment: whether the n-th `fs.appendFileSync` call fails. -/
abbrev LogEnv := Nat → Bool

/-- Process environment (`process.env`). -/
structure Env where
  WECHAT_APP_ID : Option String
  WECHAT_APP_SECRET : Option String
  HOST_IMAGE_PATH : Option String

/-- `const hostImagePath = process.env.HOST_IMAGE_PATH || ""`. -/
def hostImagePath (env : Env) : String := jsOrOpt env.HOST_IMAGE_PATH ""

/-- `const dockerImagePath = "/mnt/host-downloads"`. -/
def dockerImagePath : String := "/mnt/host-downloads"

/-- Deterministic oracles for the remote collaborators: the WeChat token,
material and draft endpoints, remote image downloads, and local file
reads. Each is a pure function of the request the code sends. -/
structure Oracles where
  token : String → String → TokenResponse
  upload : String → String → String → String → UploadHttp
  imgFetch : String → ImgHttp
  fileRead : String → String
  draft : String → String → String → String → DraftResponse

/-- The pipeline effect monad: reads the log environment, threads the
world state, and either returns a value or propagates a thrown error
(JS exception). -/
def PubM (α : Type) : Type := LogEnv → WorldSt → Except PubErr α × WorldSt

/-- `pure` for `PubM`. -/
def PubM.pure (a : α) : PubM α := fun _ s => (Except.ok a, s)

/-- `bind` for `PubM`: sequential composition, short-circuiting on a
thrown error (the state at the throw point is kept). -/
def PubM.bind (m : PubM α) (k : α → PubM β) : PubM β := fun env s =>
  match m env s with
  | (Except.ok a, s') => k a env s'
  | (Except.error e, s') => (Except.error e, s')

instance : Monad PubM where
  pure := PubM.pure
  bind := PubM.bind

/-- Throwing a JS exception. -/
def PubM.throw (e : PubErr) : PubM α := fun _ s => (Except.error e, s)

/-- Embedding of the `log(...)` helper shared by both modules: the message
always reaches the console (`console.log`); the file append is attempted
inside `try { fs.appendFileSync(...) } catch { console.log(...) }`, so a
failing append only adds a fallback console line and never throws. -/
def logM (msg : String) : PubM Unit := fun env s =>
  let s1 : WorldSt := { s with console := s.console ++ [msg], logIndex := s.logIndex + 1 }
  if env s.logIndex then
    (Except.ok (), { s1 with console := s1.console ++ ["Failed to write to log file"] })
  else
    (Except.ok (), { s1 with logFile := s1.logFile ++ [msg] })

/-- Record a remote interaction and return the oracle's answer. -/
def callExt (c : ExtCall) (answer : α) : PubM α := fun _ s =>
  (Except.ok answer, { s with calls := s.calls ++ [c] })

/-! ## `src/publish.ts` -/

/-- `fetchAccessToken(appid?, appsecret?)`: resolve credentials with `||`
(call argument over `process.env` default over `""`), query the token
endpoint, and return the whole JSON body when it carries a truthy
`access_token`; throw on an `errcode` or on an unrecognized shape. -/
def fetchAccessToken (o : Oracles) (env : Env) (appid appsecret : Option String) :
    PubM TokenResponse := do
  logM "Fetching access token"
  let appIdToUse := jsOrOpt appid (jsOrOpt env.WECHAT_APP_ID "")
  let appSecretToUse := jsOrOpt appsecret (jsOrOpt env.WECHAT_APP_SECRET "")
  let data ← callExt (ExtCall.tokenCall appIdToUse appSecretToUse)
      (o.token appIdToUse appSecretToUse)
  if jsTruthy data.access_token then do
    logM "Access token fetched"
    return data
  else if jsTruthyCode data.errcode then do
    logM "Access token fetch error"
    PubM.throw (PubErr.tokenApiError (data.errcode.getD 0) data.errmsg)
  else do
    logM "Access token fetch unknown error"
    PubM.throw PubErr.tokenUnexpected

/-- `uploadMaterial(type, fileData, fileName, accessToken)`: multipart POST
to the material endpoint; throw on a non-success HTTP status or on an
`errcode` body; otherwise rewrite the returned URL with
`data.url.replace("http://", "https://")` and return the JSON body. -/
def uploadMaterial (o : Oracles) (ty fileData fileName accessToken : String) :
    PubM UploadJson := do
  logM "Uploading material"
  let response ← callExt (ExtCall.materialCall ty fileData fileName accessToken)
      (o.upload ty fileData fileName accessToken)
  if !response.ok then do
    logM "Upload failed"
    PubM.throw (PubErr.uploadHttpError response.status response.bodyText)
  else
    let data := response.json
    if jsTruthyCode data.errcode then do
      logM "Upload error"
      PubM.throw (PubErr.uploadApiError (data.errcode.getD 0) data.errmsg)
    else do
      let result := replaceFirstS data.url "http://" "https://"
      let data := { data with url := result }
      logM "Upload success"
      return data

/-- `uploadImage(imageUrl, accessToken, fileName?)`: remote URLs
(`startsWith("http")`) are downloaded (throwing on a non-success response
or a missing body) and the file name is derived from the URL's last path
segment before any query string; other references are local paths, with
the configured host prefix substituted via
`imageUrl.replace(hostImagePath, dockerImagePath)` before the file is
read. In both branches a missing extension appends `.jpg`, and an
explicit `fileName` argument (`fileName ?? ...`) overrides the derived
name. -/
def uploadImage (o : Oracles) (env : Env) (imageUrl accessToken : String)
    (fileName : Option String) : PubM UploadJson := do
  logM "Uploading image"
  if strStartsWith imageUrl "http" then do
    let response ← callExt (ExtCall.imageFetch imageUrl) (o.imgFetch imageUrl)
    if !response.ok || !response.hasBody then do
      logM "Failed to download image from URL"
      PubM.throw (PubErr.imageFetchError imageUrl)
    else
      let fileNameFromUrl := pathBasename (beforeQuery imageUrl)
      let ext := pathExtname fileNameFromUrl
      let imageName := fileName.getD
        (if ext = "" then fileNameFromUrl ++ ".jpg" else fileNameFromUrl)
      uploadMaterial o "image" response.bytes imageName accessToken
  else do
    let localImagePath :=
      if !(hostImagePath env).isEmpty then
        replaceFirstS imageUrl (hostImagePath env) dockerImagePath
      else imageUrl
    let fileNameFromLocal := pathBasename localImagePath
    let ext := pathExtname fileNameFromLocal
    let imageName := fileName.getD
      (if ext = "" then fileNameFromLocal ++ ".jpg" else fileNameFromLocal)
    let file ← callExt (ExtCall.fileRead localImagePath) (o.fileRead localImagePath)
    uploadMaterial o "image" file imageName accessToken

/-- The DOM view of a parsed HTML document, as the code uses it: the `src`
attributes of the `<img>` elements in document order
(`document.querySelectorAll('img')`, `getAttribute('src')`), and the
serialization of the document as a function of those attributes after any
`setAttribute('src', ...)` mutations (`dom.serialize()`). The parser
itself (jsdom) is an external collaborator, kept abstract. -/
structure DomDoc where
  imgSrcs : List (Option String)
  serializeWith : List (Option String) → String

/-- The body of `images.map(async (element) => ...)` in `uploadImages`,
for one element: returns the element's final `src` attribute and its
contribution to the media-id list (`resp.media_id`, the existing CDN
`src`, or `null` when the `src` attribute is falsy). -/
def processImg (o : Oracles) (env : Env) (accessToken : String) (src : Option String) :
    PubM (Option String × Option String) :=
  if jsTruthy src then
    let dataSrc := src.getD ""
    if !(strStartsWith dataSrc "https://mmbiz.qpic.cn") then do
      let resp ← uploadImage o env dataSrc accessToken none
      return (some resp.url, some resp.media_id)
    else
      PubM.pure (src, some dataSrc)
  else
    PubM.pure (src, none)

/-- `await Promise.all(uploadPromises)` over the image elements: with
deterministic oracles the settled results are those of processing each
element in document order; any single failure fails the whole batch. -/
def uploadImagesLoop (o : Oracles) (env : Env) (accessToken : String) :
    List (Option String) → PubM (List (Option String) × List (Option String))
  | [] => PubM.pure ([], [])
  | src :: rest => do
    let r ← processImg o env accessToken src
    let rs ← uploadImagesLoop o env accessToken rest
    return (r.1 :: rs.1, r.2 :: rs.2)

/-- `uploadImages(content, accessToken)`: fast path when the content does
not include the substring `<img`; otherwise parse, process every image
element, keep `mediaIds = results.filter(Boolean)` (dropping `null` and
`""`), take `firstImageId = mediaIds[0] || ""`, and serialize the mutated
document. -/
def uploadImages (o : Oracles) (env : Env) (parseDom : String → DomDoc)
    (content accessToken : String) : PubM (String × String) := do
  logM "Uploading images in content"
  if !(strIncludes content "<img") then do
    logM "No images found in content"
    return (content, "")
  else do
    let doc := parseDom content
    let rs ← uploadImagesLoop o env accessToken doc.imgSrcs
    let mediaIds := (rs.2.filterMap id).filter (fun s => !s.isEmpty)
    let firstImageId := jsOrOpt mediaIds.head? ""
    let updatedHtml := doc.serializeWith rs.1
    logM "Images uploaded"
    return (updatedHtml, firstImageId)

/-- `publishToDraft(title, content, cover, appid?, appsecret?)`: token
fetch, image relocation, cover resolution (explicit cover → upload as
`cover.jpg`; else a CDN-URL fallback id → re-upload as `cover.jpg`; else
the fallback id itself), `MissingCoverError` when the resolved id is
empty, then the draft-creation POST. In the success branch of
`fetchAccessToken` the `access_token` field is a non-empty string; its
`Option` projection is read with `getD ""`. -/
def publishToDraft (o : Oracles) (env : Env) (parseDom : String → DomDoc)
    (title content cover : String) (appid appsecret : Option String) :
    PubM DraftResponse := do
  logM "Publishing to draft"
  let accessToken ← fetchAccessToken o env appid appsecret
  let tok := accessToken.access_token.getD ""
  let hf ← uploadImages o env parseDom content tok
  let html := hf.1
  let firstImageId := hf.2
  let thumbMediaId ←
    if !cover.isEmpty then do
      let resp ← uploadImage o env cover tok (some "cover.jpg")
      PubM.pure resp.media_id
    else if strStartsWith firstImageId "https://mmbiz.qpic.cn" then do
      let resp ← uploadImage o env firstImageId tok (some "cover.jpg")
      PubM.pure resp.media_id
    else
      PubM.pure firstImageId
  if thumbMediaId.isEmpty then do
    logM "No cover image found"
    PubM.throw PubErr.missingCover
  else do
    let data ← callExt (ExtCall.draftCall tok title html thumbMediaId)
        (o.draft tok title html thumbMediaId)
    if jsTruthy data.media_id then do
      logM "Draft published"
      return data
    else if jsTruthyCode data.errcode then do
      logM "Draft publish error"
      PubM.throw (PubErr.draftApiError (data.errcode.getD 0) data.errmsg)
    else do
      logM "Draft publish unknown error"
      PubM.throw PubErr.draftUnexpected

/-! ## `src/index.ts` -/

/-- Embedding of `String.prototype.toLowerCase`: characterwise lowering
(`String.map Char.toLower`, written directly on the character list). -/
def strToLower (s : String) : String := ⟨s.data.map Char.toLower⟩

/-- A registered theme (`./theme.js`, not part of the sources in `src/`;
the shape `{id, name, description}` is read off its uses in
`src/index.ts`). -/
structure Theme where
  id : String
  name : String
  description : String
deriving DecidableEq, Repr

/-- The static theme registry `themes` (an object keyed by id): modelled
as an association list in insertion order, since the registry module
itself is not under `src/`. -/
abbrev ThemeRegistry := List (String × Theme)

/-- JS object property lookup `themes[key]`: exact string match. -/
def lookupTheme (themes : ThemeRegistry) (key : String) : Option Theme :=
  (themes.find? (fun p => p.1 == key)).map Prod.snd

/-- Theme selection in the `publish_article` handler:
`let theme = themes["default"]; if (themeId) { theme = themes[themeId];
if (!theme) theme = Object.values(themes).find(t => t.name.toLowerCase()
=== themeId.toLowerCase()); }` - returns `none` exactly when the handler
throws `Invalid theme ID`. -/
def selectTheme (themes : ThemeRegistry) (themeId : String) : Option Theme :=
  let theme := lookupTheme themes "default"
  if !themeId.isEmpty then
    match lookupTheme themes themeId with
    | some t => some t
    | none => (themes.find? (fun p => strToLower p.2.name == strToLower themeId)).map Prod.snd
  else theme

/-- Result of `handleFrontMatter` (external `./main.js`): optional title
and cover, plus the body. -/
structure ParsedArticle where
  title : Option String
  cover : Option String
  body : String
deriving DecidableEq, Repr

/-- External collaborators from `./main.js`: the front-matter splitter and
the Markdown renderer (body, theme id ↦ HTML). -/
structure RenderDeps where
  handleFrontMatter : String → ParsedArticle
  renderMarkdown : String → String → String

/-- Arguments of a `publish_article` tool call (each possibly absent). -/
structure PublishArgs where
  content : Option String
  theme_id : Option String
  appid : Option String
  appsecret : Option String

/-- The success message returned by the `publish_article` handler. -/
def successText (mediaId : String) : String :=
  "Your article was successfully published to the draft box. The media ID is "
    ++ mediaId ++ "."

/-- `try { ... } catch (err) { log("Publish error", err); throw err; }` —
on error, emit the log line and rethrow the same error. -/
def catchLogRethrow (m : PubM α) (msg : String) : PubM α := fun env s =>
  match m env s with
  | (Except.ok a, s') => (Except.ok a, s')
  | (Except.error e, s') => ((logM msg).bind (fun _ => PubM.throw e) env s')

/-- The `publish_article` branch of the `CallToolRequestSchema` handler:
coerce the arguments with `String(x || "")`, select the theme (throwing
`Invalid theme ID` when unresolvable), split the front matter, render the
body with the selected theme id, default the title with
`preHandlerContent.title ?? "this is title"` and the cover with
`preHandlerContent.cover ?? ""`, publish to draft, and return the success
text carrying the response's media id. -/
def callToolPublish (deps : RenderDeps) (o : Oracles) (env : Env)
    (parseDom : String → DomDoc) (themes : ThemeRegistry) (args : PublishArgs) :
    PubM String := do
  logM "CallToolRequestSchema called"
  let content := jsOrOpt args.content ""
  let themeId := jsOrOpt args.theme_id ""
  match selectTheme themes themeId with
  | none => do
    logM "Invalid theme ID"
    PubM.throw PubErr.invalidTheme
  | some theme => do
    let pre := deps.handleFrontMatter content
    logM "FrontMatter handled"
    let html := deps.renderMarkdown pre.body theme.id
    logM "Markdown rendered"
    let title := pre.title.getD "this is title"
    let cover := pre.cover.getD ""
    catchLogRethrow
      (do
        let response ← publishToDraft o env parseDom title html cover args.appid args.appsecret
        logM "Article published"
        return successText (response.media_id.getD ""))
      "Publish error"

/-! ### Session routing (`app.post('/mcp')`, `handleSessionRequest`) -/

/-- The dispatcher's session maps, by key: `transports` and `servers` are
two process-wide objects keyed by session id (their values — transport
and server instances — are external, so only the key sets are modelled). -/
structure SessionState where
  transports : List String
  servers : List String
deriving DecidableEq, Repr

/-- An HTTP response of the dispatcher, as far as session routing is
concerned. -/
inductive HttpResponse where
  /-- `res.status(s).json({ jsonrpc: '2.0', error: { code, message }, id: null })`. -/
  | jsonRpcError (status : Nat) (code : Int) (message : String)
  /-- `res.status(s).send(body)` — a plain-text error. -/
  | plainError (status : Nat) (body : String)
  /-- The request was handed to `transport.handleRequest` (external). -/
  | delegated
deriving DecidableEq, Repr

/-- A POST `/mcp` request: the `mcp-session-id` header (possibly absent)
and whether the body satisfies `isInitializeRequest` (external predicate
of the protocol SDK). -/
structure McpPostRequest where
  sessionId : Option String
  isInit : Bool
deriving DecidableEq, Repr

/-- The routing logic of `app.post('/mcp')`: reuse a known session;
otherwise, with no session id and an initialization body, mint a new
session (via the SDK's `sessionIdGenerator`, modelled by `newSid`) and
register transport and server under it; otherwise reject with the
structured `-32000` protocol error and touch nothing. -/
def mcpPost (st : SessionState) (req : McpPostRequest) (newSid : String) :
    HttpResponse × SessionState :=
  if jsTruthy req.sessionId ∧ (req.sessionId.getD "") ∈ st.transports then
    (HttpResponse.delegated, st)
  else if ¬ jsTruthy req.sessionId ∧ req.isInit then
    (HttpResponse.delegated,
      { st with transports := st.transports ++ [newSid], servers := st.servers ++ [newSid] })
  else
    (HttpResponse.jsonRpcError 400 (-32000) "Bad Request: No valid session ID provided", st)

/-- `handleSessionRequest` (GET and DELETE `/mcp`): reject an absent or
unknown session id with a plain-text 400, else delegate; the session maps
are never written. -/
def handleSessionRequest (st : SessionState) (sessionId : Option String) : HttpResponse :=
  if ¬ jsTruthy sessionId ∨ (sessionId.getD "") ∉ st.transports then
    HttpResponse.plainError 400 "Invalid or missing session ID"
  else
    HttpResponse.delegated

/-! ## Run lemmas for the effect monad

`FstConst m r`: the computation's result is `r` whatever the log
environment and the incoming world state — the result channel of the
pipeline is a pure function of the oracles and inputs.

`CallsSpec m P`: the computation appends to the call trace a block `δ`
satisfying `P`, again independently of log environment and prior state. -/

/-- The result of `m` is `r` under every log environment and state. -/
def FstConst (m : PubM α) (r : Except PubErr α) : Prop :=
  ∀ env s, (m env s).1 = r

/-- The calls appended by `m` form a block satisfying `P`, under every log
environment and state. -/
def CallsSpec (m : PubM α) (P : List ExtCall → Prop) : Prop :=
  ∀ env s, ∃ δ, ((m env s).2).calls = s.calls ++ δ ∧ P δ

/-! ## Pure result characterizations of the pipeline

For each pipeline function `f`, `fR` computes the same result channel as a
pure function of the oracles and inputs (no log environment, no state);
`f_fst` proves `FstConst (f ...) (fR ...)`. The claims below are settled
against the monadic embedding through these lemmas. -/

/-- Result channel of `fetchAccessToken`. -/
def fetchAccessTokenR (o : Oracles) (env : Env) (appid appsecret : Option String) :
    Except PubErr TokenResponse :=
  let data := o.token (jsOrOpt appid (jsOrOpt env.WECHAT_APP_ID ""))
      (jsOrOpt appsecret (jsOrOpt env.WECHAT_APP_SECRET ""))
  if jsTruthy data.access_token then Except.ok data
  else if jsTruthyCode data.errcode then
    Except.error (PubErr.tokenApiError (data.errcode.getD 0) data.errmsg)
  else Except.error PubErr.tokenUnexpected

/-- Result channel of `uploadMaterial`. -/
def uploadMaterialR (o : Oracles) (ty fileData fileName accessToken : String) :
    Except PubErr UploadJson :=
  let response := o.upload ty fileData fileName accessToken
  if !response.ok then
    Except.error (PubErr.uploadHttpError response.status response.bodyText)
  else
    let data := response.json
    if jsTruthyCode data.errcode then
      Except.error (PubErr.uploadApiError (data.errcode.getD 0) data.errmsg)
    else
      Except.ok { data with url := replaceFirstS data.url "http://" "https://" }

/-- Result channel of `uploadImage`. -/
def uploadImageR (o : Oracles) (env : Env) (imageUrl accessToken : String)
    (fileName : Option String) : Except PubErr UploadJson :=
  if strStartsWith imageUrl "http" then
    let response := o.imgFetch imageUrl
    if !response.ok || !response.hasBody then
      Except.error (PubErr.imageFetchError imageUrl)
    else
      let fileNameFromUrl := pathBasename (beforeQuery imageUrl)
      let ext := pathExtname fileNameFromUrl
      let imageName := fileName.getD
        (if ext = "" then fileNameFromUrl ++ ".jpg" else fileNameFromUrl)
      uploadMaterialR o "image" response.bytes imageName accessToken
  else
    let localImagePath :=
      if !(hostImagePath env).isEmpty then
        replaceFirstS imageUrl (hostImagePath env) dockerImagePath
      else imageUrl
    let fileNameFromLocal := pathBasename localImagePath
    let ext := pathExtname fileNameFromLocal
    let imageName := fileName.getD
      (if ext = "" then fileNameFromLocal ++ ".jpg" else fileNameFromLocal)
    uploadMaterialR o "image" (o.fileRead localImagePath) imageName accessToken

/-- Result channel of `processImg`. -/
def processImgR (o : Oracles) (env : Env) (accessToken : String) (src : Option String) :
    Except PubErr (Option String × Option String) :=
  if jsTruthy src then
    let dataSrc := src.getD ""
    if !(strStartsWith dataSrc "https://mmbiz.qpic.cn") then do
      let resp ← uploadImageR o env dataSrc accessToken none
      Except.ok (some resp.url, some resp.media_id)
    else Except.ok (src, some dataSrc)
  else Except.ok (src, none)

/-- Result channel of `uploadImagesLoop`. -/
def uploadImagesLoopR (o : Oracles) (env : Env) (accessToken : String) :
    List (Option String) → Except PubErr (List (Option String) × List (Option String))
  | [] => Except.ok ([], [])
  | src :: rest => do
    let r ← processImgR o env accessToken src
    let rs ← uploadImagesLoopR o env accessToken rest
    Except.ok (r.1 :: rs.1, r.2 :: rs.2)

/-- Result channel of `uploadImages`. -/
def uploadImagesR (o : Oracles) (env : Env) (parseDom : String → DomDoc)
    (content accessToken : String) : Except PubErr (String × String) :=
  if !(strIncludes content "<img") then Except.ok (content, "")
  else
    let doc := parseDom content
    do
      let rs ← uploadImagesLoopR o env accessToken doc.imgSrcs
      let mediaIds := (rs.2.filterMap id).filter (fun s => !s.isEmpty)
      Except.ok (doc.serializeWith rs.1, jsOrOpt mediaIds.head? "")

/-- Result channel of `publishToDraft`. -/
def publishToDraftR (o : Oracles) (env : Env) (parseDom : String → DomDoc)
    (title content cover : String) (appid appsecret : Option String) :
    Except PubErr DraftResponse := do
  let accessToken ← fetchAccessTokenR o env appid appsecret
  let tok := accessToken.access_token.getD ""
  let hf ← uploadImagesR o env parseDom content tok
  let thumbMediaId ←
    if !cover.isEmpty then do
      let resp ← uploadImageR o env cover tok (some "cover.jpg")
      Except.ok resp.media_id
    else if strStartsWith hf.2 "https://mmbiz.qpic.cn" then do
      let resp ← uploadImageR o env hf.2 tok (some "cover.jpg")
      Except.ok resp.media_id
    else
      Except.ok hf.2
  if thumbMediaId.isEmpty then Except.error PubErr.missingCover
  else
    let data := o.draft tok title hf.1 thumbMediaId
    if jsTruthy data.media_id then Except.ok data
    else if jsTruthyCode data.errcode then
      Except.error (PubErr.draftApiError (data.errcode.getD 0) data.errmsg)
    else Except.error PubErr.draftUnexpected

/-- Result channel of `callToolPublish`. -/
def callToolPublishR (deps : RenderDeps) (o : Oracles) (env : Env)
    (parseDom : String → DomDoc) (themes : ThemeRegistry) (args : PublishArgs) :
    Except PubErr String :=
  let content := jsOrOpt args.content ""
  let themeId := jsOrOpt args.theme_id ""
  match selectTheme themes themeId with
  | none => Except.error PubErr.invalidTheme
  | some theme => do
    let pre := deps.handleFrontMatter content
    let html := deps.renderMarkdown pre.body theme.id
    let title := pre.title.getD "this is title"
    let cover := pre.cover.getD ""
    let response ← publishToDraftR o env parseDom title html cover args.appid args.appsecret
    Except.ok (successText (response.media_id.getD ""))

/-! ### Trace lemmas: which remote calls a pipeline stage can issue -/

/-- A block of calls containing no draft-creation request. -/
def NoDraft (δ : List ExtCall) : Prop := ∀ c ∈ δ, c.isDraft = false

/-! ## Claims -/

/-- Constant oracles used by concrete counterexamples and witnesses. -/
def okOracles : Oracles where
  token := fun _ _ => ⟨some "T", none, ""⟩
  upload := fun _ _ _ _ => ⟨true, 200, "", ⟨none, "", "m1", "https://a/?u=http://b"⟩⟩
  imgFetch := fun _ => ⟨true, true, "bytes"⟩
  fileRead := fun _ => "bytes"
  draft := fun _ _ _ _ => ⟨some "D", none, ""⟩

/-- The all-appends-succeed log environment. -/
def envOk : LogEnv := fun _ => false

/-- A process environment with nothing configured. -/
def envNone : Env := ⟨none, none, none⟩

/-- A trivial abstract DOM parse (used by concrete witnesses where the
content stays on the fast path and the parse is never consulted). -/
def constParse : String → DomDoc := fun _ => ⟨[], fun _ => ""⟩

/-- A process environment configuring the host-prefix mapping `/h`. -/
def envHost : Env := ⟨none, none, some "/h"⟩

/-- Discriminator: is this response a structured JSON-RPC protocol error? -/
def HttpResponse.isJsonRpcError : HttpResponse → Bool
  | .jsonRpcError _ _ _ => true
  | _ => false

/-- The dispatcher state with no active session. -/
def emptySessions : SessionState := ⟨[], []⟩

/-- A concrete two-theme registry for witnesses. -/
def themesW : ThemeRegistry :=
  [("default", ⟨"default", "Default", "base theme"⟩),
   ("pie", ⟨"pie", "Pie", "pie theme"⟩)]

/-- Concrete external renderer dependencies for witnesses. -/
def constDeps : RenderDeps := ⟨fun _ => ⟨none, none, "body"⟩, fun _ _ => "html"⟩

/-- The title carried by a draft-creation request, if this is one. -/
def ExtCall.draftTitle : ExtCall → Option String
  | .draftCall _ t _ _ => some t
  | _ => none

/-- Every draft-creation request in the block carries the title `t`. -/
def DraftsTitled (t : String) (δ : List ExtCall) : Prop :=
  ∀ c ∈ δ, c.isDraft = true → c.draftTitle = some t

/-- The per-element `src` outcome of `uploadImages` when every upload
answers according to `ur`: a truthy non-CDN `src` is rewritten to the
uploaded URL, a CDN-hosted or falsy `src` is left untouched. -/
def rewriteSrc (ur : String → UploadJson) (src : Option String) : Option String :=
  if jsTruthy src then
    if !(strStartsWith (src.getD "") "https://mmbiz.qpic.cn") then
      some (ur (src.getD "")).url
    else src
  else src

/-- The per-element contribution to the media-id list: the uploaded media
id for a truthy non-CDN `src`, the existing `src` string for a CDN-hosted
one, `null` for a falsy one. -/
def contribOf (ur : String → UploadJson) (src : Option String) : Option String :=
  if jsTruthy src then
    if !(strStartsWith (src.getD "") "https://mmbiz.qpic.cn") then
      some (ur (src.getD "")).media_id
    else some (src.getD "")
  else none

/-- A concrete one-image DOM parse for the C6 witness: one `<img>` with
`src="/pic/a.png"`, serialized by concatenating the final `src` values. -/
def parseW : String → DomDoc :=
  fun _ => ⟨[some "/pic/a.png"], fun srcs => (srcs.filterMap id).foldl (fun a b => a ++ b) ""⟩

/-- The constant upload answer of `okOracles`. -/
def urW : String → UploadJson := fun _ => ⟨none, "", "m1", "https://a/?u=https://b"⟩

/-! ## Theory of `replaceFirst` (JS `String.replace` with a string pattern) -/

/-- Decomposition of `replaceFirst`: either the pattern does not occur and
the string is unchanged (in particular the pattern is not a prefix), or
the string splits around the first occurrence; when the occurrence is not
leading, the pattern is not a prefix of the input. -/
theorem replaceFirst_spec (pat rep : List Char) (hpat : pat ≠ []) (s : List Char) :
    (replaceFirst pat rep s = s ∧ ¬ pat <+: s) ∨
    ∃ b a, s = b ++ pat ++ a ∧ replaceFirst pat rep s = b ++ rep ++ a ∧
      (b ≠ [] → ¬ pat <+: s) := by
  induction s with
  | nil =>
    left
    constructor
    · simp [replaceFirst, List.isEmpty_iff, hpat]
    · intro h
      exact hpat (List.prefix_nil.mp h)
  | cons c rest ih =>
    by_cases hpre : pat <+: (c :: rest)
    · right
      obtain ⟨t, ht⟩ := hpre
      refine ⟨[], t, by simp [ht.symm], ?_, fun h => absurd rfl h⟩
      have : replaceFirst pat rep (c :: rest) = rep ++ (c :: rest).drop pat.length := by
        simp [replaceFirst, List.isPrefixOf_iff_prefix]
        exact fun h => absurd ⟨t, ht⟩ h
      rw [this, ← ht]
      simp
    · have hstep : replaceFirst pat rep (c :: rest) = c :: replaceFirst pat rep rest := by
        simp [replaceFirst, List.isPrefixOf_iff_prefix, hpre]
      rcases ih with ⟨heq, hnp⟩ | ⟨b, a, hsplit, hrepl, _⟩
      · left
        exact ⟨by rw [hstep, heq], hpre⟩
      · right
        refine ⟨c :: b, a, by simp [hsplit], by rw [hstep, hrepl]; simp, fun _ => hpre⟩

/-- A prefix of `l₁ ++ l₂` short enough to fit inside `l₁` is a prefix of `l₁`. -/
theorem prefix_of_append_left {α : Type} {p l₁ l₂ : List α}
    (h : p <+: l₁ ++ l₂) (hlen : p.length ≤ l₁.length) : p <+: l₁ := by
  have heq : p = (l₁ ++ l₂).take p.length := List.prefix_iff_eq_take.mp h
  rw [List.take_append_eq_append_take] at heq
  have h0 : p.length - l₁.length = 0 := by omega
  rw [h0] at heq
  simp at heq
  rw [heq]
  exact List.take_prefix _ _

/-- The result of the `http:// → https://` first-occurrence substitution
never starts with `http://`. -/
theorem replaceFirst_http_no_http (s : List Char) :
    ¬ httpPat <+: replaceFirst httpPat httpsRep s := by
  have hpat : httpPat ≠ [] := by decide
  rcases replaceFirst_spec httpPat httpsRep hpat s with ⟨heq, hnp⟩ | ⟨b, a, hsplit, hrepl, hne⟩
  · rw [heq]; exact hnp
  · rw [hrepl]
    intro h
    by_cases hb : 7 ≤ b.length
    · have h1 : httpPat <+: b := by
        have h' : httpPat <+: b ++ (httpsRep ++ a) := by simpa using h
        exact prefix_of_append_left h' (by simp [httpPat]; omega)
      have h2 : httpPat <+: s := by
        rw [hsplit]
        exact h1.trans (by rw [List.append_assoc]; exact List.prefix_append _ _)
      have hbne : b ≠ [] := by intro hb0; rw [hb0] at hb; simp at hb
      exact hne hbne h2
    · push_neg at hb
      have h' : httpPat <+: b ++ (httpsRep ++ a) := by simpa using h
      have heq : httpPat = (b ++ (httpsRep ++ a)).take httpPat.length :=
        List.prefix_iff_eq_take.mp h'
      rw [List.take_append_eq_append_take] at heq
      have htb : List.take httpPat.length b = b :=
        List.take_of_length_le (by simp [httpPat]; omega)
      rw [htb] at heq
      have hdrop : httpPat.drop b.length
          = List.take (httpPat.length - b.length) (httpsRep ++ a) := by
        conv_lhs => rw [heq]
        simp
      have hdrop2 : httpPat.drop b.length <+: httpsRep := by
        have hp : httpPat.drop b.length <+: httpsRep ++ a := by
          rw [hdrop]; exact List.take_prefix _ _
        refine prefix_of_append_left hp ?_
        have h7 : (httpPat.drop b.length).length = 7 - b.length := by simp [httpPat]
        have h8 : httpsRep.length = 8 := by decide
        omega
      have hall : ∀ k, k < 7 → ¬ httpPat.drop k <+: httpsRep := by decide
      exact hall b.length hb hdrop2

/-- When the pattern occurs as a leading prefix, `replaceFirst` replaces
exactly that leading occurrence. -/
theorem replaceFirst_leading (pat rep : List Char) (s : List Char)
    (h : pat <+: s) (hpat : pat ≠ []) :
    replaceFirst pat rep s = rep ++ s.drop pat.length := by
  cases s with
  | nil => exact absurd (List.prefix_nil.mp h) hpat
  | cons c rest =>
    simp [replaceFirst, List.isPrefixOf_iff_prefix]
    exact fun hn => absurd h hn

theorem fstConst_pure (a : α) : FstConst (Pure.pure a) (Except.ok a) := fun _ _ => rfl

theorem fstConst_pure' (a : α) : FstConst (PubM.pure a) (Except.ok a) := fun _ _ => rfl

theorem fstConst_throw (e : PubErr) : FstConst (PubM.throw (α := α) e) (Except.error e) :=
  fun _ _ => rfl

theorem fstConst_logM (msg : String) : FstConst (logM msg) (Except.ok ()) := by
  intro env s
  unfold logM
  by_cases h : env s.logIndex <;> simp [h]

theorem fstConst_callExt (c : ExtCall) (a : α) : FstConst (callExt c a) (Except.ok a) :=
  fun _ _ => rfl

theorem fstConst_bind_ok {m : PubM α} {k : α → PubM β} {a : α} {r : Except PubErr β}
    (hm : FstConst m (Except.ok a)) (hk : FstConst (k a) r) :
    FstConst (m >>= k) r := by
  intro env s
  show (PubM.bind m k env s).1 = r
  unfold PubM.bind
  have hfst := hm env s
  rcases hr : m env s with ⟨r₁, s₁⟩
  rw [hr] at hfst
  simp at hfst
  subst hfst
  exact hk env s₁

theorem fstConst_bind_err {m : PubM α} {k : α → PubM β} {e : PubErr}
    (hm : FstConst m (Except.error e)) :
    FstConst (m >>= k) (Except.error e) := by
  intro env s
  show (PubM.bind m k env s).1 = Except.error e
  unfold PubM.bind
  have hfst := hm env s
  rcases hr : m env s with ⟨r₁, s₁⟩
  rw [hr] at hfst
  simp at hfst
  subst hfst
  rfl

theorem callsSpec_pure (a : α) : CallsSpec (Pure.pure a) (fun δ => δ = []) :=
  fun _ s => ⟨[], by simp [Pure.pure, PubM.pure], rfl⟩

theorem callsSpec_pure' (a : α) : CallsSpec (PubM.pure a) (fun δ => δ = []) :=
  fun _ s => ⟨[], by simp [PubM.pure], rfl⟩

theorem callsSpec_throw (e : PubErr) :
    CallsSpec (PubM.throw (α := α) e) (fun δ => δ = []) :=
  fun _ s => ⟨[], by simp [PubM.throw], rfl⟩

theorem callsSpec_logM (msg : String) : CallsSpec (logM msg) (fun δ => δ = []) := by
  intro env s
  refine ⟨[], ?_, rfl⟩
  unfold logM
  by_cases h : env s.logIndex <;> simp [h]

theorem callsSpec_callExt (c : ExtCall) (a : α) :
    CallsSpec (callExt c a) (fun δ => δ = [c]) :=
  fun _ _ => ⟨[c], rfl, rfl⟩

theorem callsSpec_mono {m : PubM α} {P Q : List ExtCall → Prop}
    (h : CallsSpec m P) (hPQ : ∀ δ, P δ → Q δ) : CallsSpec m Q := by
  intro env s
  obtain ⟨δ, h1, h2⟩ := h env s
  exact ⟨δ, h1, hPQ δ h2⟩

/-- Sequencing for traces: the appended block is `δ₁ ++ δ₂` with `P δ₁`,
and `δ₂` either comes from the continuation (`Q δ₂`) or is empty (the
computation stopped at an error inside `m`). -/
theorem callsSpec_bind {m : PubM α} {k : α → PubM β} {P Q : List ExtCall → Prop}
    (hm : CallsSpec m P) (hk : ∀ a, CallsSpec (k a) Q) :
    CallsSpec (m >>= k) (fun δ => ∃ δ₁ δ₂, δ = δ₁ ++ δ₂ ∧ P δ₁ ∧ (Q δ₂ ∨ δ₂ = [])) := by
  intro env s
  show ∃ δ, ((PubM.bind m k env s).2).calls = s.calls ++ δ ∧ _
  unfold PubM.bind
  obtain ⟨δ₁, h1, hP⟩ := hm env s
  rcases hr : m env s with ⟨r₁, s₁⟩
  rw [hr] at h1
  cases r₁ with
  | ok a =>
    obtain ⟨δ₂, h2, hQ⟩ := hk a env s₁
    refine ⟨δ₁ ++ δ₂, ?_, δ₁, δ₂, rfl, hP, Or.inl hQ⟩
    simp at h1
    rw [h2, h1, List.append_assoc]
  | error e =>
    exact ⟨δ₁ ++ [], by simpa using h1, δ₁, [], rfl, hP, Or.inr rfl⟩

/-- Sequencing for traces when the first computation's result is known:
both blocks are present. -/
theorem callsSpec_bind_ok {m : PubM α} {k : α → PubM β} {a : α} {P Q : List ExtCall → Prop}
    (hm : FstConst m (Except.ok a)) (hmc : CallsSpec m P) (hk : CallsSpec (k a) Q) :
    CallsSpec (m >>= k) (fun δ => ∃ δ₁ δ₂, δ = δ₁ ++ δ₂ ∧ P δ₁ ∧ Q δ₂) := by
  intro env s
  show ∃ δ, ((PubM.bind m k env s).2).calls = s.calls ++ δ ∧ _
  unfold PubM.bind
  obtain ⟨δ₁, h1, hP⟩ := hmc env s
  have hfst := hm env s
  rcases hr : m env s with ⟨r₁, s₁⟩
  rw [hr] at h1 hfst
  simp at hfst
  subst hfst
  obtain ⟨δ₂, h2, hQ⟩ := hk env s₁
  refine ⟨δ₁ ++ δ₂, ?_, δ₁, δ₂, rfl, hP, hQ⟩
  simp at h1
  rw [h2, h1, List.append_assoc]

theorem fetchAccessToken_fst (o : Oracles) (env : Env) (appid appsecret : Option String) :
    FstConst (fetchAccessToken o env appid appsecret)
      (fetchAccessTokenR o env appid appsecret) := by
  unfold fetchAccessToken fetchAccessTokenR
  apply fstConst_bind_ok (fstConst_logM _)
  apply fstConst_bind_ok (fstConst_callExt _ _)
  by_cases h1 : jsTruthy (o.token (jsOrOpt appid (jsOrOpt env.WECHAT_APP_ID ""))
      (jsOrOpt appsecret (jsOrOpt env.WECHAT_APP_SECRET ""))).access_token
  · simp only [h1, if_true]
    exact fstConst_bind_ok (fstConst_logM _) (fstConst_pure _)
  · simp only [h1, Bool.false_eq_true, if_false]
    by_cases h2 : jsTruthyCode (o.token (jsOrOpt appid (jsOrOpt env.WECHAT_APP_ID ""))
        (jsOrOpt appsecret (jsOrOpt env.WECHAT_APP_SECRET ""))).errcode
    · simp only [h2, if_true]
      exact fstConst_bind_ok (fstConst_logM _) (fstConst_throw _)
    · simp only [h2, Bool.false_eq_true, if_false]
      exact fstConst_bind_ok (fstConst_logM _) (fstConst_throw _)

theorem uploadMaterial_fst (o : Oracles) (ty fileData fileName accessToken : String) :
    FstConst (uploadMaterial o ty fileData fileName accessToken)
      (uploadMaterialR o ty fileData fileName accessToken) := by
  unfold uploadMaterial uploadMaterialR
  apply fstConst_bind_ok (fstConst_logM _)
  apply fstConst_bind_ok (fstConst_callExt _ _)
  by_cases h1 : (o.upload ty fileData fileName accessToken).ok
  · simp only [h1, Bool.not_true, Bool.false_eq_true, if_false]
    by_cases h2 : jsTruthyCode (o.upload ty fileData fileName accessToken).json.errcode
    · simp only [h2, if_true]
      exact fstConst_bind_ok (fstConst_logM _) (fstConst_throw _)
    · simp only [h2, Bool.false_eq_true, if_false]
      exact fstConst_bind_ok (fstConst_logM _) (fstConst_pure _)
  · simp only [Bool.not_eq_true] at h1
    simp only [h1, Bool.not_false, if_true]
    exact fstConst_bind_ok (fstConst_logM _) (fstConst_throw _)

/-- Sequencing of result characterizations: a bind's result is the bind of
the results. -/
theorem fstConst_bind_of {m : PubM α} {k : α → PubM β} {rm : Except PubErr α}
    {rk : α → Except PubErr β}
    (hm : FstConst m rm) (hk : ∀ a, FstConst (k a) (rk a)) :
    FstConst (m >>= k) (rm >>= rk) := by
  cases hr : rm with
  | ok a =>
    have : (Except.ok a >>= rk : Except PubErr β) = rk a := rfl
    rw [this]
    exact fstConst_bind_ok (hr ▸ hm) (hk a)
  | error e =>
    have : (Except.error e >>= rk : Except PubErr β) = Except.error e := rfl
    rw [this]
    exact fstConst_bind_err (hr ▸ hm)

/-- `catchLogRethrow` logs on the error path but preserves the result. -/
theorem fstConst_catchLogRethrow {m : PubM α} {r : Except PubErr α} {msg : String}
    (hm : FstConst m r) : FstConst (catchLogRethrow m msg) r := by
  intro env s
  unfold catchLogRethrow
  have hfst := hm env s
  rcases hr : m env s with ⟨r₁, s₁⟩
  rw [hr] at hfst
  simp at hfst
  subst hfst
  cases r₁ with
  | ok a => rfl
  | error e =>
    show ((logM msg).bind (fun _ => PubM.throw e) env s₁).1 = Except.error e
    unfold PubM.bind logM PubM.throw
    by_cases h : env s₁.logIndex <;> simp [h]

theorem uploadImage_fst (o : Oracles) (env : Env) (imageUrl accessToken : String)
    (fileName : Option String) :
    FstConst (uploadImage o env imageUrl accessToken fileName)
      (uploadImageR o env imageUrl accessToken fileName) := by
  unfold uploadImage uploadImageR
  apply fstConst_bind_ok (fstConst_logM _)
  by_cases h1 : strStartsWith imageUrl "http"
  · simp only [h1, if_true]
    apply fstConst_bind_ok (fstConst_callExt _ _)
    by_cases h2 : (!(o.imgFetch imageUrl).ok || !(o.imgFetch imageUrl).hasBody)
    · simp only [h2, if_true]
      exact fstConst_bind_ok (fstConst_logM _) (fstConst_throw _)
    · simp only [h2, Bool.false_eq_true, if_false]
      exact uploadMaterial_fst _ _ _ _ _
  · simp only [h1, Bool.false_eq_true, if_false]
    apply fstConst_bind_ok (fstConst_callExt _ _)
    exact uploadMaterial_fst _ _ _ _ _

theorem processImg_fst (o : Oracles) (env : Env) (accessToken : String) (src : Option String) :
    FstConst (processImg o env accessToken src) (processImgR o env accessToken src) := by
  unfold processImg processImgR
  by_cases h1 : jsTruthy src
  · simp only [h1, if_true]
    by_cases h2 : !(strStartsWith (src.getD "") "https://mmbiz.qpic.cn")
    · simp only [h2, if_true]
      exact fstConst_bind_of (uploadImage_fst _ _ _ _ _) (fun a => fstConst_pure _)
    · simp only [h2, Bool.false_eq_true, if_false]
      exact fstConst_pure' _
  · simp only [h1, Bool.false_eq_true, if_false]
    exact fstConst_pure' _

theorem uploadImagesLoop_fst (o : Oracles) (env : Env) (accessToken : String)
    (srcs : List (Option String)) :
    FstConst (uploadImagesLoop o env accessToken srcs)
      (uploadImagesLoopR o env accessToken srcs) := by
  induction srcs with
  | nil => exact fstConst_pure' _
  | cons src rest ih =>
    show FstConst (uploadImagesLoop o env accessToken (src :: rest)) _
    unfold uploadImagesLoop uploadImagesLoopR
    apply fstConst_bind_of (processImg_fst _ _ _ _)
    intro r
    exact fstConst_bind_of ih (fun rs => fstConst_pure _)

theorem uploadImages_fst (o : Oracles) (env : Env) (parseDom : String → DomDoc)
    (content accessToken : String) :
    FstConst (uploadImages o env parseDom content accessToken)
      (uploadImagesR o env parseDom content accessToken) := by
  unfold uploadImages uploadImagesR
  apply fstConst_bind_ok (fstConst_logM _)
  by_cases h1 : !(strIncludes content "<img")
  · simp only [h1, if_true]
    exact fstConst_bind_ok (fstConst_logM _) (fstConst_pure _)
  · simp only [h1, Bool.false_eq_true, if_false]
    apply fstConst_bind_of (uploadImagesLoop_fst _ _ _ _)
    intro rs
    exact fstConst_bind_ok (fstConst_logM _) (fstConst_pure _)

theorem publishToDraft_fst (o : Oracles) (env : Env) (parseDom : String → DomDoc)
    (title content cover : String) (appid appsecret : Option String) :
    FstConst (publishToDraft o env parseDom title content cover appid appsecret)
      (publishToDraftR o env parseDom title content cover appid appsecret) := by
  unfold publishToDraft publishToDraftR
  apply fstConst_bind_ok (fstConst_logM _)
  apply fstConst_bind_of (fetchAccessToken_fst _ _ _ _)
  intro accessToken
  apply fstConst_bind_of (uploadImages_fst _ _ _ _ _)
  intro hf
  dsimp only
  have hrest : ∀ thumbMediaId : String,
      FstConst
        (if thumbMediaId.isEmpty = true then do
          logM "No cover image found"
          PubM.throw PubErr.missingCover
        else do
          let data ← callExt
            (ExtCall.draftCall (accessToken.access_token.getD "") title hf.1 thumbMediaId)
            (o.draft (accessToken.access_token.getD "") title hf.1 thumbMediaId)
          if jsTruthy data.media_id = true then do
            logM "Draft published"
            pure data
          else if jsTruthyCode data.errcode = true then do
            logM "Draft publish error"
            PubM.throw (PubErr.draftApiError (data.errcode.getD 0) data.errmsg)
          else do
            logM "Draft publish unknown error"
            PubM.throw PubErr.draftUnexpected)
        (if thumbMediaId.isEmpty = true then Except.error PubErr.missingCover
        else
          let data := o.draft (accessToken.access_token.getD "") title hf.1 thumbMediaId
          if jsTruthy data.media_id = true then Except.ok data
          else if jsTruthyCode data.errcode = true then
            Except.error (PubErr.draftApiError (data.errcode.getD 0) data.errmsg)
          else Except.error PubErr.draftUnexpected) := by
    intro thumbMediaId
    by_cases h3 : thumbMediaId.isEmpty
    · simp only [h3, if_true]
      exact fstConst_bind_ok (fstConst_logM _) (fstConst_throw _)
    · simp only [h3, Bool.false_eq_true, if_false]
      apply fstConst_bind_ok (fstConst_callExt _ _)
      by_cases h4 : jsTruthy (o.draft (accessToken.access_token.getD "") title hf.1
          thumbMediaId).media_id
      · simp only [h4, if_true]
        exact fstConst_bind_ok (fstConst_logM _) (fstConst_pure _)
      · simp only [h4, Bool.false_eq_true, if_false]
        by_cases h5 : jsTruthyCode (o.draft (accessToken.access_token.getD "") title hf.1
            thumbMediaId).errcode
        · simp only [h5, if_true]
          exact fstConst_bind_ok (fstConst_logM _) (fstConst_throw _)
        · simp only [h5, Bool.false_eq_true, if_false]
          exact fstConst_bind_ok (fstConst_logM _) (fstConst_throw _)
  by_cases h1 : (!cover.isEmpty) = true
  · simp only [h1, if_true]
    apply fstConst_bind_of (uploadImage_fst _ _ _ _ _)
    intro resp
    exact fstConst_bind_of (fstConst_pure' _) (fun t => hrest t)
  · simp only [h1, Bool.false_eq_true, if_false]
    by_cases h2 : strStartsWith hf.2 "https://mmbiz.qpic.cn"
    · simp only [h2, if_true]
      apply fstConst_bind_of (uploadImage_fst _ _ _ _ _)
      intro resp
      exact fstConst_bind_of (fstConst_pure' _) (fun t => hrest t)
    · simp only [h2, Bool.false_eq_true, if_false]
      exact fstConst_bind_of (fstConst_pure' _) (fun t => hrest t)

theorem noDraft_nil : NoDraft [] := by intro c hc; cases hc

theorem noDraft_append {δ₁ δ₂ : List ExtCall} (h1 : NoDraft δ₁) (h2 : NoDraft δ₂) :
    NoDraft (δ₁ ++ δ₂) := by
  intro c hc
  rcases List.mem_append.mp hc with h | h
  · exact h1 c h
  · exact h2 c h

theorem nd_of_eq_nil {m : PubM α} (h : CallsSpec m (fun δ => δ = [])) :
    CallsSpec m NoDraft :=
  callsSpec_mono h (fun _ hδ => hδ ▸ noDraft_nil)

theorem nd_pure (a : α) : CallsSpec (Pure.pure a) NoDraft := nd_of_eq_nil (callsSpec_pure a)

theorem nd_pure' (a : α) : CallsSpec (PubM.pure a) NoDraft := nd_of_eq_nil (callsSpec_pure' a)

theorem nd_throw (e : PubErr) : CallsSpec (PubM.throw (α := α) e) NoDraft :=
  nd_of_eq_nil (callsSpec_throw e)

theorem nd_logM (msg : String) : CallsSpec (logM msg) NoDraft :=
  nd_of_eq_nil (callsSpec_logM msg)

theorem nd_callExt (c : ExtCall) (a : α) (hc : c.isDraft = false) :
    CallsSpec (callExt c a) NoDraft :=
  callsSpec_mono (callsSpec_callExt c a)
    (fun δ hδ => hδ ▸ (fun c' hc' => by rcases List.mem_singleton.mp hc' with rfl; exact hc))

theorem nd_bind {m : PubM α} {k : α → PubM β}
    (hm : CallsSpec m NoDraft) (hk : ∀ a, CallsSpec (k a) NoDraft) :
    CallsSpec (m >>= k) NoDraft := by
  apply callsSpec_mono (callsSpec_bind hm hk)
  rintro δ ⟨δ₁, δ₂, rfl, h1, h2 | rfl⟩
  · exact noDraft_append h1 h2
  · simpa using h1

theorem nd_fetchAccessToken (o : Oracles) (env : Env) (appid appsecret : Option String) :
    CallsSpec (fetchAccessToken o env appid appsecret) NoDraft := by
  unfold fetchAccessToken
  apply nd_bind (nd_logM _)
  intro _
  refine nd_bind (nd_callExt _ _ (by rfl)) ?_
  intro data
  by_cases h1 : jsTruthy data.access_token
  · simp only [h1, if_true]
    exact nd_bind (nd_logM _) (fun _ => nd_pure _)
  · simp only [h1, Bool.false_eq_true, if_false]
    by_cases h2 : jsTruthyCode data.errcode
    · simp only [h2, if_true]
      exact nd_bind (nd_logM _) (fun _ => nd_throw _)
    · simp only [h2, Bool.false_eq_true, if_false]
      exact nd_bind (nd_logM _) (fun _ => nd_throw _)

theorem nd_uploadMaterial (o : Oracles) (ty fileData fileName accessToken : String) :
    CallsSpec (uploadMaterial o ty fileData fileName accessToken) NoDraft := by
  unfold uploadMaterial
  apply nd_bind (nd_logM _)
  intro _
  refine nd_bind (nd_callExt _ _ (by rfl)) ?_
  intro response
  by_cases h1 : !response.ok
  · simp only [h1, if_true]
    exact nd_bind (nd_logM _) (fun _ => nd_throw _)
  · simp only [h1, Bool.false_eq_true, if_false]
    by_cases h2 : jsTruthyCode response.json.errcode
    · simp only [h2, if_true]
      exact nd_bind (nd_logM _) (fun _ => nd_throw _)
    · simp only [h2, Bool.false_eq_true, if_false]
      exact nd_bind (nd_logM _) (fun _ => nd_pure _)

theorem nd_uploadImage (o : Oracles) (env : Env) (imageUrl accessToken : String)
    (fileName : Option String) :
    CallsSpec (uploadImage o env imageUrl accessToken fileName) NoDraft := by
  unfold uploadImage
  apply nd_bind (nd_logM _)
  intro _
  by_cases h1 : strStartsWith imageUrl "http"
  · simp only [h1, if_true]
    refine nd_bind (nd_callExt _ _ (by rfl)) ?_
    intro response
    by_cases h2 : (!response.ok || !response.hasBody)
    · simp only [h2, if_true]
      exact nd_bind (nd_logM _) (fun _ => nd_throw _)
    · simp only [h2, Bool.false_eq_true, if_false]
      exact nd_uploadMaterial _ _ _ _ _
  · simp only [h1, Bool.false_eq_true, if_false]
    refine nd_bind (nd_callExt _ _ (by rfl)) ?_
    intro _
    exact nd_uploadMaterial _ _ _ _ _

theorem nd_processImg (o : Oracles) (env : Env) (accessToken : String) (src : Option String) :
    CallsSpec (processImg o env accessToken src) NoDraft := by
  unfold processImg
  by_cases h1 : jsTruthy src
  · simp only [h1, if_true]
    by_cases h2 : !(strStartsWith (src.getD "") "https://mmbiz.qpic.cn")
    · simp only [h2, if_true]
      exact nd_bind (nd_uploadImage _ _ _ _ _) (fun _ => nd_pure _)
    · simp only [h2, Bool.false_eq_true, if_false]
      exact nd_pure' _
  · simp only [h1, Bool.false_eq_true, if_false]
    exact nd_pure' _

theorem nd_uploadImagesLoop (o : Oracles) (env : Env) (accessToken : String)
    (srcs : List (Option String)) :
    CallsSpec (uploadImagesLoop o env accessToken srcs) NoDraft := by
  induction srcs with
  | nil => exact nd_pure' _
  | cons src rest ih =>
    show CallsSpec (uploadImagesLoop o env accessToken (src :: rest)) NoDraft
    unfold uploadImagesLoop
    apply nd_bind (nd_processImg _ _ _ _)
    intro _
    exact nd_bind ih (fun _ => nd_pure _)

theorem nd_uploadImages (o : Oracles) (env : Env) (parseDom : String → DomDoc)
    (content accessToken : String) :
    CallsSpec (uploadImages o env parseDom content accessToken) NoDraft := by
  unfold uploadImages
  apply nd_bind (nd_logM _)
  intro _
  by_cases h1 : !(strIncludes content "<img")
  · simp only [h1, if_true]
    exact nd_bind (nd_logM _) (fun _ => nd_pure _)
  · simp only [h1, Bool.false_eq_true, if_false]
    apply nd_bind (nd_uploadImagesLoop _ _ _ _)
    intro _
    exact nd_bind (nd_logM _) (fun _ => nd_pure _)

/-- Sequencing specialized to draft-freedom with a known first result. -/
theorem nd_bind_ok {m : PubM α} {k : α → PubM β} {a : α}
    (hm : FstConst m (Except.ok a)) (hmc : CallsSpec m NoDraft)
    (hk : CallsSpec (k a) NoDraft) : CallsSpec (m >>= k) NoDraft := by
  apply callsSpec_mono (callsSpec_bind_ok hm hmc hk)
  rintro δ ⟨δ₁, δ₂, rfl, h1, h2⟩
  exact noDraft_append h1 h2

/-- Call membership: the block of a `callExt` is that call. -/
theorem mem_callExt (c : ExtCall) (a : α) :
    CallsSpec (callExt c a) (fun δ => c ∈ δ) :=
  callsSpec_mono (callsSpec_callExt c a) (fun _ hδ => hδ ▸ List.mem_singleton.mpr rfl)

/-- Call membership from the continuation of a bind with known result. -/
theorem mem_bind_ok {m : PubM α} {k : α → PubM β} {a : α} {c : ExtCall}
    {P : List ExtCall → Prop}
    (hm : FstConst m (Except.ok a)) (hmc : CallsSpec m P)
    (hk : CallsSpec (k a) (fun δ => c ∈ δ)) :
    CallsSpec (m >>= k) (fun δ => c ∈ δ) := by
  apply callsSpec_mono (callsSpec_bind_ok hm hmc hk)
  rintro δ ⟨δ₁, δ₂, rfl, _, h2⟩
  exact List.mem_append_right δ₁ h2

/-- Call membership from the head of a bind. -/
theorem mem_bind_left {m : PubM α} {k : α → PubM β} {c : ExtCall}
    {Q : List ExtCall → Prop}
    (hm : CallsSpec m (fun δ => c ∈ δ)) (hk : ∀ a, CallsSpec (k a) Q) :
    CallsSpec (m >>= k) (fun δ => c ∈ δ) := by
  apply callsSpec_mono (callsSpec_bind hm hk)
  rintro δ ⟨δ₁, δ₂, rfl, h1, _⟩
  exact List.mem_append_left δ₂ h1

theorem callToolPublish_fst (deps : RenderDeps) (o : Oracles) (env : Env)
    (parseDom : String → DomDoc) (themes : ThemeRegistry) (args : PublishArgs) :
    FstConst (callToolPublish deps o env parseDom themes args)
      (callToolPublishR deps o env parseDom themes args) := by
  unfold callToolPublish callToolPublishR
  apply fstConst_bind_ok (fstConst_logM _)
  rcases h1 : selectTheme themes (jsOrOpt args.theme_id "") with _ | theme
  · simp only [h1]
    exact fstConst_bind_ok (fstConst_logM _) (fstConst_throw _)
  · simp only [h1]
    apply fstConst_bind_ok (fstConst_logM _)
    apply fstConst_bind_ok (fstConst_logM _)
    apply fstConst_catchLogRethrow
    apply fstConst_bind_of (publishToDraft_fst _ _ _ _ _ _ _ _)
    intro response
    exact fstConst_bind_ok (fstConst_logM _) (fstConst_pure _)

/-- C2, counterexample. The claim states the normalization is "a prefix
substitution only: for every URL the remote returns, the result differs
from it at most by replacing a leading `http://`". For the remote URL
`https://a/?u=http://b` — which does not begin with `http://` — the code
nevertheless rewrites the embedded occurrence, returning
`https://a/?u=https://b` ≠ the input, so the mutation is not confined to a
leading prefix. -/
theorem c2_counterexample :
    strStartsWith "https://a/?u=http://b" "http://" = false ∧
    (uploadMaterial okOracles "image" "bytes" "f.jpg" "T" envOk WorldSt.init).1
      = Except.ok ⟨none, "", "m1", "https://a/?u=https://b"⟩ ∧
    ("https://a/?u=https://b" : String) ≠ "https://a/?u=http://b" := by
  refine ⟨by decide, ?_, by decide⟩
  rfl

/-- C2, amended: for every successful `uploadMaterial` call the returned
URL is the remote URL with the FIRST occurrence of `http://` anywhere in
it replaced by `https://` (all other fields unchanged); consequently the
returned URL never begins with `http://`, and when the remote URL does
begin with `http://` it is exactly that leading prefix that is replaced. -/
theorem c2_uploadMaterial_url_normalization (o : Oracles)
    (ty fileData fileName accessToken : String)
    (hok : (o.upload ty fileData fileName accessToken).ok = true)
    (herr : jsTruthyCode (o.upload ty fileData fileName accessToken).json.errcode = false) :
    (∀ envL s, (uploadMaterial o ty fileData fileName accessToken envL s).1
      = Except.ok { (o.upload ty fileData fileName accessToken).json with
          url := replaceFirstS (o.upload ty fileData fileName accessToken).json.url
            "http://" "https://" }) ∧
    strStartsWith (replaceFirstS (o.upload ty fileData fileName accessToken).json.url
      "http://" "https://") "http://" = false ∧
    (strStartsWith (o.upload ty fileData fileName accessToken).json.url "http://" = true →
      replaceFirstS (o.upload ty fileData fileName accessToken).json.url "http://" "https://"
        = ⟨"https://".data ++
            (o.upload ty fileData fileName accessToken).json.url.data.drop 7⟩) := by
  refine ⟨?_, ?_, ?_⟩
  · intro envL s
    have h := uploadMaterial_fst o ty fileData fileName accessToken envL s
    rw [h]
    unfold uploadMaterialR
    simp only [hok, Bool.not_true, Bool.false_eq_true, if_false, herr]
  · have h := replaceFirst_http_no_http
      (o.upload ty fileData fileName accessToken).json.url.data
    unfold strStartsWith replaceFirstS
    simp only [Bool.eq_false_iff, ne_eq]
    intro hc
    exact h (by
      have : httpPat = "http://".data := rfl
      rw [this]
      exact List.isPrefixOf_iff_prefix.mp hc)
  · intro hpre
    unfold replaceFirstS
    have hp : "http://".data <+:
        (o.upload ty fileData fileName accessToken).json.url.data :=
      List.isPrefixOf_iff_prefix.mp hpre
    have := replaceFirst_leading "http://".data "https://".data
      (o.upload ty fileData fileName accessToken).json.url.data hp (by decide)
    rw [this, show "http://".data.length = 7 from rfl]

/-- C2, witness: concrete successful upload through
`c2_uploadMaterial_url_normalization`. -/
theorem c2_uploadMaterial_url_normalization_witness :
    (okOracles.upload "image" "bytes" "f.jpg" "T").ok = true ∧
    (∀ envL s, (uploadMaterial okOracles "image" "bytes" "f.jpg" "T" envL s).1
      = Except.ok { (okOracles.upload "image" "bytes" "f.jpg" "T").json with
          url := replaceFirstS (okOracles.upload "image" "bytes" "f.jpg" "T").json.url
            "http://" "https://" }) := by
  refine ⟨rfl, ?_⟩
  exact (c2_uploadMaterial_url_normalization okOracles "image" "bytes" "f.jpg" "T"
    rfl rfl).1

/-- Sequencing of empty trace blocks. -/
theorem callsSpec_nil_bind {m : PubM α} {k : α → PubM β}
    (hm : CallsSpec m (fun δ => δ = [])) (hk : ∀ a, CallsSpec (k a) (fun δ => δ = [])) :
    CallsSpec (m >>= k) (fun δ => δ = []) := by
  apply callsSpec_mono (callsSpec_bind hm hk)
  rintro δ ⟨δ₁, δ₂, rfl, rfl, h2 | rfl⟩
  · simpa using h2
  · simp

/-- C5: for every HTML input containing zero `<img>` tags, `uploadImages`
returns the input unchanged with an empty fallback media id, and performs
no remote call at all. An input containing zero `<img>` tags is embedded
as one not containing the substring `<img` — a lowercase `<img ...>` tag
in the source text is literally that substring, and the fast-path guard
`content.includes('<img')` tests exactly this; the DOM parser is an
external collaborator and never runs on this path. -/
theorem c5_uploadImages_noop (o : Oracles) (env : Env) (parseDom : String → DomDoc)
    (content accessToken : String)
    (h : strIncludes content "<img" = false) :
    (∀ envL s, (uploadImages o env parseDom content accessToken envL s).1
      = Except.ok (content, "")) ∧
    (∀ envL s, ((uploadImages o env parseDom content accessToken envL s).2).calls
      = s.calls) := by
  constructor
  · intro envL s
    rw [uploadImages_fst o env parseDom content accessToken envL s]
    unfold uploadImagesR
    simp only [h, Bool.not_false, if_true]
  · intro envL s
    have hc : CallsSpec (uploadImages o env parseDom content accessToken)
        (fun δ => δ = []) := by
      unfold uploadImages
      apply callsSpec_nil_bind (callsSpec_logM _)
      intro _
      simp only [h, Bool.not_false, if_true]
      exact callsSpec_nil_bind (callsSpec_logM _) (fun _ => callsSpec_pure _)
    obtain ⟨δ, h1, h2⟩ := hc envL s
    rw [h1, h2]
    simp

/-- C5, witness: the literal content `hello` through `c5_uploadImages_noop`. -/
theorem c5_uploadImages_noop_witness :
    strIncludes "hello" "<img" = false ∧
    (uploadImages okOracles envNone constParse "hello" "T" envOk WorldSt.init).1
      = Except.ok ("hello", "") ∧
    ((uploadImages okOracles envNone constParse "hello" "T" envOk WorldSt.init).2).calls
      = [] := by
  have h := c5_uploadImages_noop okOracles envNone constParse "hello" "T" (by decide)
  exact ⟨by decide, h.1 envOk WorldSt.init, h.2 envOk WorldSt.init⟩

/-- C4, counterexample. The claim states that when neither the call
arguments nor the process defaults yield a non-empty id/secret pair, the
operation "fails with CredentialError ... before any remote token
exchange is attempted". With no credentials anywhere, the code performs
no such check: it issues the token exchange with the empty pair (the
trace records `tokenCall "" ""`), and — the remote here answering with a
token — succeeds. -/
theorem c4_counterexample :
    (fetchAccessToken okOracles envNone none none envOk WorldSt.init).1
      = Except.ok ⟨some "T", none, ""⟩ ∧
    ((fetchAccessToken okOracles envNone none none envOk WorldSt.init).2).calls
      = [ExtCall.tokenCall "" ""] := by
  constructor <;> rfl

/-- C4, amended: call-supplied appId/appSecret take precedence over the
process-level defaults under JS `||` (a non-empty call argument wins, an
absent or empty one falls back to the default, then to `""`); the token
exchange is always attempted, exactly once, with the resolved pair — even
when both sources are empty — and the result is entirely determined by
the remote response (`fetchAccessTokenR`): the code never fails locally
with a credential error. -/
theorem c4_fetchAccessToken_credentials (o : Oracles) (env : Env)
    (appid appsecret : Option String) :
    (∀ envL s, ((fetchAccessToken o env appid appsecret envL s).2).calls
      = s.calls ++ [ExtCall.tokenCall
          (jsOrOpt appid (jsOrOpt env.WECHAT_APP_ID ""))
          (jsOrOpt appsecret (jsOrOpt env.WECHAT_APP_SECRET ""))]) ∧
    (∀ envL s, (fetchAccessToken o env appid appsecret envL s).1
      = fetchAccessTokenR o env appid appsecret) ∧
    (∀ a d, a ≠ "" → jsOrOpt (some a) d = a) ∧
    (∀ d : String, jsOrOpt none d = d) ∧
    (∀ d : String, jsOrOpt (some "") d = d) := by
  refine ⟨?_, fetchAccessToken_fst o env appid appsecret, ?_, fun d => rfl, fun d => rfl⟩
  case refine_2 =>
    intro a d ha
    simp [jsOrOpt, String.isEmpty_iff, ha]
  · intro envL s
    have hc : CallsSpec (fetchAccessToken o env appid appsecret)
        (fun δ => δ = [ExtCall.tokenCall
          (jsOrOpt appid (jsOrOpt env.WECHAT_APP_ID ""))
          (jsOrOpt appsecret (jsOrOpt env.WECHAT_APP_SECRET ""))]) := by
      unfold fetchAccessToken
      have hbody : ∀ data : TokenResponse, CallsSpec
          (if jsTruthy data.access_token = true then do
            logM "Access token fetched"
            pure data
          else if jsTruthyCode data.errcode = true then do
            logM "Access token fetch error"
            PubM.throw (PubErr.tokenApiError (data.errcode.getD 0) data.errmsg)
          else do
            logM "Access token fetch unknown error"
            PubM.throw PubErr.tokenUnexpected)
          (fun δ => δ = []) := by
        intro data
        by_cases h1 : jsTruthy data.access_token
        · simp only [h1, if_true]
          exact callsSpec_nil_bind (callsSpec_logM _) (fun _ => callsSpec_pure _)
        · simp only [h1, Bool.false_eq_true, if_false]
          by_cases h2 : jsTruthyCode data.errcode
          · simp only [h2, if_true]
            exact callsSpec_nil_bind (callsSpec_logM _) (fun _ => callsSpec_throw _)
          · simp only [h2, Bool.false_eq_true, if_false]
            exact callsSpec_nil_bind (callsSpec_logM _) (fun _ => callsSpec_throw _)
      apply callsSpec_mono (callsSpec_bind_ok (fstConst_logM _) (callsSpec_logM _)
        (callsSpec_bind_ok (fstConst_callExt _ _) (callsSpec_callExt _ _) (hbody _)))
      rintro δ ⟨δ₁, δ₂, rfl, rfl, δ₃, δ₄, rfl, rfl, rfl⟩
      simp
    obtain ⟨δ, h1, h2⟩ := hc envL s
    rw [h1, h2]

/-- C4, witness: explicit credentials through
`c4_fetchAccessToken_credentials` — the exchange is attempted with the
call-supplied pair. -/
theorem c4_fetchAccessToken_credentials_witness :
    ((fetchAccessToken okOracles envNone (some "A") (some "S") envOk WorldSt.init).2).calls
      = [] ++ [ExtCall.tokenCall
          (jsOrOpt (some "A") (jsOrOpt envNone.WECHAT_APP_ID ""))
          (jsOrOpt (some "S") (jsOrOpt envNone.WECHAT_APP_SECRET ""))] ∧
    jsOrOpt (some "A") (jsOrOpt envNone.WECHAT_APP_ID "") = "A" := by
  refine ⟨?_, (c4_fetchAccessToken_credentials okOracles envNone (some "A") (some "S")).2.2.1
    "A" (jsOrOpt envNone.WECHAT_APP_ID "") (by decide)⟩
  exact (c4_fetchAccessToken_credentials okOracles envNone (some "A") (some "S")).1
    envOk WorldSt.init

/-- `uploadMaterial` always performs exactly one material upload call,
whatever the response. -/
theorem uploadMaterial_calls (o : Oracles) (ty fileData fileName accessToken : String) :
    CallsSpec (uploadMaterial o ty fileData fileName accessToken)
      (fun δ => δ = [ExtCall.materialCall ty fileData fileName accessToken]) := by
  unfold uploadMaterial
  have hbody : ∀ response : UploadHttp, CallsSpec
      (if (!response.ok) = true then do
        logM "Upload failed"
        PubM.throw (PubErr.uploadHttpError response.status response.bodyText)
      else
        let data := response.json
        if jsTruthyCode data.errcode = true then do
          logM "Upload error"
          PubM.throw (PubErr.uploadApiError (data.errcode.getD 0) data.errmsg)
        else do
          let result := replaceFirstS data.url "http://" "https://"
          let data := { data with url := result }
          logM "Upload success"
          pure data)
      (fun δ => δ = []) := by
    intro response
    by_cases h1 : !response.ok
    · simp only [h1, if_true]
      exact callsSpec_nil_bind (callsSpec_logM _) (fun _ => callsSpec_throw _)
    · simp only [h1, Bool.false_eq_true, if_false]
      by_cases h2 : jsTruthyCode response.json.errcode
      · simp only [h2, if_true]
        exact callsSpec_nil_bind (callsSpec_logM _) (fun _ => callsSpec_throw _)
      · simp only [h2, Bool.false_eq_true, if_false]
        exact callsSpec_nil_bind (callsSpec_logM _) (fun _ => callsSpec_pure _)
  apply callsSpec_mono (callsSpec_bind_ok (fstConst_logM _) (callsSpec_logM _)
    (callsSpec_bind_ok (fstConst_callExt _ _) (callsSpec_callExt _ _) (hbody _)))
  rintro δ ⟨δ₁, δ₂, rfl, rfl, δ₃, δ₄, rfl, rfl, rfl⟩
  simp

/-- C8, counterexample. The claim states that "the configured host prefix
is substituted by the container prefix (and only the leading prefix of
the path is affected) before the file is read". For the local path
`/x/h/y.png` — of which the configured host prefix `/h` is NOT a leading
prefix — the code nevertheless substitutes the mid-path occurrence
(`String.replace` replaces the first occurrence anywhere) and reads
`/x/mnt/host-downloads/y.png` instead of the unmodified path. -/
theorem c8_counterexample :
    strStartsWith "/x/h/y.png" "/h" = false ∧
    ((uploadImage okOracles envHost "/x/h/y.png" "T" none envOk WorldSt.init).2).calls
      = [ExtCall.fileRead "/x/mnt/host-downloads/y.png",
         ExtCall.materialCall "image" "bytes" "y.png" "T"] := by
  constructor <;> rfl

/-- C8, amended: for every local-filesystem image reference (not starting
with `http`) processed without an explicit filename while a
host-to-container mapping is configured, the FIRST occurrence of the
configured host prefix anywhere in the path is substituted by the
container prefix `/mnt/host-downloads` (when the path starts with the
host prefix this is exactly the leading occurrence); the file read
targets the substituted path, and the upload filename is the substituted
path's last segment, with `.jpg` appended when that segment carries no
extension. -/
theorem c8_uploadImage_local_path (o : Oracles) (env : Env)
    (imageUrl accessToken : String)
    (hlocal : strStartsWith imageUrl "http" = false)
    (hhost : (hostImagePath env).isEmpty = false) :
    (∀ envL s, ((uploadImage o env imageUrl accessToken none envL s).2).calls
      = s.calls ++
        [ExtCall.fileRead (replaceFirstS imageUrl (hostImagePath env) dockerImagePath),
         ExtCall.materialCall "image"
           (o.fileRead (replaceFirstS imageUrl (hostImagePath env) dockerImagePath))
           (if pathExtname (pathBasename
                (replaceFirstS imageUrl (hostImagePath env) dockerImagePath)) = "" then
              pathBasename (replaceFirstS imageUrl (hostImagePath env) dockerImagePath)
                ++ ".jpg"
            else pathBasename (replaceFirstS imageUrl (hostImagePath env) dockerImagePath))
           accessToken]) ∧
    (strStartsWith imageUrl (hostImagePath env) = true →
      (replaceFirstS imageUrl (hostImagePath env) dockerImagePath).data
        = dockerImagePath.data ++ imageUrl.data.drop (hostImagePath env).length) := by
  constructor
  · intro envL s
    have hc : CallsSpec (uploadImage o env imageUrl accessToken none)
        (fun δ => δ =
          [ExtCall.fileRead (replaceFirstS imageUrl (hostImagePath env) dockerImagePath),
           ExtCall.materialCall "image"
             (o.fileRead (replaceFirstS imageUrl (hostImagePath env) dockerImagePath))
             (if pathExtname (pathBasename
                  (replaceFirstS imageUrl (hostImagePath env) dockerImagePath)) = "" then
                pathBasename (replaceFirstS imageUrl (hostImagePath env) dockerImagePath)
                  ++ ".jpg"
              else pathBasename (replaceFirstS imageUrl (hostImagePath env) dockerImagePath))
             accessToken]) := by
      unfold uploadImage
      simp only [hlocal, Bool.false_eq_true, if_false, hhost, Bool.not_false, if_true,
        Option.getD_none]
      apply callsSpec_mono (callsSpec_bind_ok (fstConst_logM _) (callsSpec_logM _)
        (callsSpec_bind_ok (fstConst_callExt _ _) (callsSpec_callExt _ _)
          (uploadMaterial_calls _ _ _ _ _)))
      rintro δ ⟨δ₁, δ₂, rfl, rfl, δ₃, δ₄, rfl, rfl, rfl⟩
      simp
    obtain ⟨δ, h1, h2⟩ := hc envL s
    rw [h1, h2]
  · intro hpre
    unfold replaceFirstS
    have hp : (hostImagePath env).data <+: imageUrl.data :=
      List.isPrefixOf_iff_prefix.mp hpre
    have hne : (hostImagePath env).data ≠ [] := by
      intro h0
      have heq : hostImagePath env = "" := by
        apply String.ext
        simpa using h0
      rw [heq] at hhost
      exact absurd hhost (by decide)
    rw [replaceFirst_leading _ _ _ hp hne]
    rfl

/-- C8, witness: the path `/h/pics/a` (host prefix leading, no extension)
through `c8_uploadImage_local_path`. -/
theorem c8_uploadImage_local_path_witness :
    ((uploadImage okOracles envHost "/h/pics/a" "T" none envOk WorldSt.init).2).calls
      = [] ++
        [ExtCall.fileRead (replaceFirstS "/h/pics/a" (hostImagePath envHost) dockerImagePath),
         ExtCall.materialCall "image"
           (okOracles.fileRead (replaceFirstS "/h/pics/a" (hostImagePath envHost)
              dockerImagePath))
           (if pathExtname (pathBasename
                (replaceFirstS "/h/pics/a" (hostImagePath envHost) dockerImagePath)) = "" then
              pathBasename (replaceFirstS "/h/pics/a" (hostImagePath envHost) dockerImagePath)
                ++ ".jpg"
            else pathBasename (replaceFirstS "/h/pics/a" (hostImagePath envHost)
              dockerImagePath))
           "T"] ∧
    replaceFirstS "/h/pics/a" (hostImagePath envHost) dockerImagePath
      = "/mnt/host-downloads/pics/a" := by
  refine ⟨?_, by rfl⟩
  exact (c8_uploadImage_local_path okOracles envHost "/h/pics/a" "T"
    (by rfl) (by rfl)).1 envOk WorldSt.init

/-- C7, counterexample. The claim states that EVERY incoming request with
an unknown, non-empty session id is rejected "with a structured protocol
error carrying code -32000". A GET (or DELETE) `/mcp` request with the
unknown session id `sess` is instead rejected by `handleSessionRequest`
with the plain-text 400 response `Invalid or missing session ID`
(`res.status(400).send(...)`, `index.ts:218`) — not a structured
protocol error at all. (No session is created either way.) -/
theorem c7_counterexample :
    handleSessionRequest emptySessions (some "sess")
      = HttpResponse.plainError 400 "Invalid or missing session ID" ∧
    (handleSessionRequest emptySessions (some "sess")).isJsonRpcError = false := by
  constructor <;> rfl

/-- C7, amended: for every request bearing a non-empty session id absent
from the active session map, a POST `/mcp` request is rejected with the
structured protocol error of code `-32000` and the session maps are left
exactly as they were (no session created); a GET or DELETE `/mcp` request
is rejected with the plain-text 400 response `Invalid or missing session
ID` (and never writes the session maps). -/
theorem c7_unknown_session_rejected (st : SessionState) (sid : String) (newSid : String)
    (hne : sid ≠ "") (habs : sid ∉ st.transports) :
    (∀ isInit : Bool, mcpPost st ⟨some sid, isInit⟩ newSid
      = (HttpResponse.jsonRpcError 400 (-32000) "Bad Request: No valid session ID provided",
         st)) ∧
    handleSessionRequest st (some sid)
      = HttpResponse.plainError 400 "Invalid or missing session ID" := by
  have htr : jsTruthy (some sid) = true := by
    have hie : sid.isEmpty = false := by
      rw [Bool.eq_false_iff]
      intro h
      exact hne ((String.isEmpty_iff sid).mp h)
    simp [jsTruthy, hie]
  constructor
  · intro isInit
    unfold mcpPost
    rw [if_neg, if_neg]
    · rintro ⟨h1, _⟩
      rw [htr] at h1
      exact h1 rfl
    · rintro ⟨_, h2⟩
      exact habs (by simpa using h2)
  · unfold handleSessionRequest
    rw [if_pos]
    right
    simpa using habs

/-- C7, witness: the unknown id `sess` against a one-session map through
`c7_unknown_session_rejected`. -/
theorem c7_unknown_session_rejected_witness :
    mcpPost ⟨["a"], ["a"]⟩ ⟨some "sess", true⟩ "new"
      = (HttpResponse.jsonRpcError 400 (-32000) "Bad Request: No valid session ID provided",
         ⟨["a"], ["a"]⟩) ∧
    handleSessionRequest ⟨["a"], ["a"]⟩ (some "sess")
      = HttpResponse.plainError 400 "Invalid or missing session ID" := by
  have h := c7_unknown_session_rejected ⟨["a"], ["a"]⟩ "sess" "new"
    (by decide) (by decide)
  exact ⟨h.1 true, h.2⟩

/-- C3: theme selection in the `publish_article` handler. With no theme id
supplied the handler's lookup key is `""` and the `default` registry entry
is selected; with a non-empty key, an exact match on the registry id wins;
failing that, the first registered theme whose name matches
case-insensitively; and when the key resolves to no theme the invocation
fails with `Invalid theme ID`. -/
theorem c3_theme_selection (themes : ThemeRegistry) :
    (selectTheme themes "" = lookupTheme themes "default") ∧
    (∀ tid t, tid ≠ "" → lookupTheme themes tid = some t →
      selectTheme themes tid = some t) ∧
    (∀ tid, tid ≠ "" → lookupTheme themes tid = none →
      selectTheme themes tid
        = (themes.find? (fun p => strToLower p.2.name == strToLower tid)).map Prod.snd) ∧
    (∀ deps o env parseDom args,
      selectTheme themes (jsOrOpt args.theme_id "") = none →
      ∀ envL s, (callToolPublish deps o env parseDom themes args envL s).1
        = Except.error PubErr.invalidTheme) := by
  refine ⟨?_, ?_, ?_, ?_⟩
  · unfold selectTheme
    rw [if_neg (by decide : ¬((!("" : String).isEmpty) = true))]
  · intro tid t hne hlook
    have hie : tid.isEmpty = false := by
      rw [Bool.eq_false_iff]
      intro h
      exact hne ((String.isEmpty_iff tid).mp h)
    unfold selectTheme
    simp only [hie, Bool.not_false, if_true, hlook]
  · intro tid hne hlook
    have hie : tid.isEmpty = false := by
      rw [Bool.eq_false_iff]
      intro h
      exact hne ((String.isEmpty_iff tid).mp h)
    unfold selectTheme
    simp only [hie, Bool.not_false, if_true, hlook]
  · intro deps o env parseDom args hsel envL s
    rw [callToolPublish_fst deps o env parseDom themes args envL s]
    unfold callToolPublishR
    simp only [hsel]

/-- C3, witness: the concrete registry `themesW` through
`c3_theme_selection` — default selection, exact-id match, case-insensitive
name match, and the `InvalidThemeError` failure. -/
theorem c3_theme_selection_witness :
    selectTheme themesW "" = lookupTheme themesW "default" ∧
    selectTheme themesW "pie" = some ⟨"pie", "Pie", "pie theme"⟩ ∧
    selectTheme themesW "PIE" = some ⟨"pie", "Pie", "pie theme"⟩ ∧
    (callToolPublish constDeps okOracles envNone constParse themesW
      ⟨some "content", some "nope", none, none⟩ envOk WorldSt.init).1
      = Except.error PubErr.invalidTheme := by
  have h := c3_theme_selection themesW
  refine ⟨h.1, h.2.1 "pie" _ (by decide) (by rfl), ?_, ?_⟩
  · exact (h.2.2.1 "PIE" (by decide) (by rfl)).trans (by decide)
  · exact h.2.2.2 constDeps okOracles envNone constParse
      ⟨some "content", some "nope", none, none⟩ (by decide) envOk WorldSt.init

/-- C10: a failure of the diagnostic-log file append never changes any
pipeline result. The `log` helper writes the console, then attempts the
file append inside `try { ... } catch`, swallowing the failure (modelled
by `logM`, total in the log environment), so for every operation of the
pipeline and of the tool dispatcher the result — success value or thrown
error — is the same under every pattern of log-append failures. -/
theorem c10_log_failures_do_not_propagate :
    (∀ (o : Oracles) (env : Env) (appid appsecret : Option String) (e1 e2 : LogEnv)
      (s : WorldSt),
      (fetchAccessToken o env appid appsecret e1 s).1
        = (fetchAccessToken o env appid appsecret e2 s).1) ∧
    (∀ (o : Oracles) (ty fileData fileName accessToken : String) (e1 e2 : LogEnv)
      (s : WorldSt),
      (uploadMaterial o ty fileData fileName accessToken e1 s).1
        = (uploadMaterial o ty fileData fileName accessToken e2 s).1) ∧
    (∀ (o : Oracles) (env : Env) (imageUrl accessToken : String) (fileName : Option String)
      (e1 e2 : LogEnv) (s : WorldSt),
      (uploadImage o env imageUrl accessToken fileName e1 s).1
        = (uploadImage o env imageUrl accessToken fileName e2 s).1) ∧
    (∀ (o : Oracles) (env : Env) (parseDom : String → DomDoc) (content accessToken : String)
      (e1 e2 : LogEnv) (s : WorldSt),
      (uploadImages o env parseDom content accessToken e1 s).1
        = (uploadImages o env parseDom content accessToken e2 s).1) ∧
    (∀ (o : Oracles) (env : Env) (parseDom : String → DomDoc)
      (title content cover : String) (appid appsecret : Option String)
      (e1 e2 : LogEnv) (s : WorldSt),
      (publishToDraft o env parseDom title content cover appid appsecret e1 s).1
        = (publishToDraft o env parseDom title content cover appid appsecret e2 s).1) ∧
    (∀ (deps : RenderDeps) (o : Oracles) (env : Env) (parseDom : String → DomDoc)
      (themes : ThemeRegistry) (args : PublishArgs) (e1 e2 : LogEnv) (s : WorldSt),
      (callToolPublish deps o env parseDom themes args e1 s).1
        = (callToolPublish deps o env parseDom themes args e2 s).1) := by
  refine ⟨?_, ?_, ?_, ?_, ?_, ?_⟩
  · intro o env appid appsecret e1 e2 s
    rw [fetchAccessToken_fst o env appid appsecret e1 s,
      fetchAccessToken_fst o env appid appsecret e2 s]
  · intro o ty fileData fileName accessToken e1 e2 s
    rw [uploadMaterial_fst o ty fileData fileName accessToken e1 s,
      uploadMaterial_fst o ty fileData fileName accessToken e2 s]
  · intro o env imageUrl accessToken fileName e1 e2 s
    rw [uploadImage_fst o env imageUrl accessToken fileName e1 s,
      uploadImage_fst o env imageUrl accessToken fileName e2 s]
  · intro o env parseDom content accessToken e1 e2 s
    rw [uploadImages_fst o env parseDom content accessToken e1 s,
      uploadImages_fst o env parseDom content accessToken e2 s]
  · intro o env parseDom title content cover appid appsecret e1 e2 s
    rw [publishToDraft_fst o env parseDom title content cover appid appsecret e1 s,
      publishToDraft_fst o env parseDom title content cover appid appsecret e2 s]
  · intro deps o env parseDom themes args e1 e2 s
    rw [callToolPublish_fst deps o env parseDom themes args e1 s,
      callToolPublish_fst deps o env parseDom themes args e2 s]

/-- `bind` on an `Except.ok` reduces to the continuation. -/
theorem except_ok_bind {α β : Type} (a : α) (f : α → Except PubErr β) :
    (Except.ok a >>= f : Except PubErr β) = f a := rfl

/-- A non-empty string is not `isEmpty`. -/
theorem isEmpty_false_of_ne {s : String} (h : s ≠ "") : s.isEmpty = false := by
  rw [Bool.eq_false_iff]
  intro hh
  exact h ((String.isEmpty_iff s).mp hh)

/-- A draft-free block contributes nothing to the draft-call filter. -/
theorem noDraft_filter {δ : List ExtCall} (h : NoDraft δ) :
    δ.filter ExtCall.isDraft = [] :=
  List.filter_eq_nil_iff.mpr (fun c hc => by simp [h c hc])

/-- The draft-response handler at the end of `publishToDraft` performs no
further remote call. -/
theorem draftHandler_calls_nil :
    ∀ data : DraftResponse, CallsSpec
      (if jsTruthy data.media_id = true then do
        logM "Draft published"
        Pure.pure (f := PubM) data
      else if jsTruthyCode data.errcode = true then do
        logM "Draft publish error"
        PubM.throw (PubErr.draftApiError (data.errcode.getD 0) data.errmsg)
      else do
        logM "Draft publish unknown error"
        PubM.throw PubErr.draftUnexpected)
      (fun δ => δ = []) := by
  intro data
  by_cases h1 : jsTruthy data.media_id
  · simp only [h1, if_true]
    exact callsSpec_nil_bind (callsSpec_logM _) (fun _ => callsSpec_pure _)
  · simp only [h1, Bool.false_eq_true, if_false]
    by_cases h2 : jsTruthyCode data.errcode
    · simp only [h2, if_true]
      exact callsSpec_nil_bind (callsSpec_logM _) (fun _ => callsSpec_throw _)
    · simp only [h2, Bool.false_eq_true, if_false]
      exact callsSpec_nil_bind (callsSpec_logM _) (fun _ => callsSpec_throw _)

/-- C1: cover resolution in `publishToDraft`, given that the token fetch
and the image relocation succeed (yielding relocated HTML `html` and
fallback id `fid`). (1) With no explicit cover and an empty fallback id
the operation fails with the missing-cover error and no draft-creation
request is ever issued. Conversely the draft-creation request is
submitted with the resolved cover id in each resolution mode: (2) an
explicit cover, uploaded under the fixed filename `cover.jpg`, when the
upload reports a non-empty media id; (3) a CDN-hosted fallback URL,
re-uploaded under `cover.jpg`, likewise; (4) a non-CDN, non-empty
fallback id used directly. -/
theorem c1_publishToDraft_cover (o : Oracles) (env : Env) (parseDom : String → DomDoc)
    (title content cover : String) (appid appsecret : Option String)
    (tokResp : TokenResponse) (html fid : String)
    (htok : fetchAccessTokenR o env appid appsecret = Except.ok tokResp)
    (himg : uploadImagesR o env parseDom content (tokResp.access_token.getD "")
      = Except.ok (html, fid)) :
    (cover = "" → fid = "" →
      (∀ envL s, (publishToDraft o env parseDom title content cover appid appsecret
          envL s).1 = Except.error PubErr.missingCover) ∧
      (∀ envL s, (((publishToDraft o env parseDom title content cover appid appsecret
          envL s).2).calls.filter ExtCall.isDraft) = s.calls.filter ExtCall.isDraft)) ∧
    (∀ covResp : UploadJson, cover ≠ "" →
      uploadImageR o env cover (tokResp.access_token.getD "") (some "cover.jpg")
        = Except.ok covResp →
      covResp.media_id ≠ "" →
      ∀ envL s, ExtCall.draftCall (tokResp.access_token.getD "") title html covResp.media_id
        ∈ ((publishToDraft o env parseDom title content cover appid appsecret
          envL s).2).calls) ∧
    (∀ covResp : UploadJson, cover = "" →
      strStartsWith fid "https://mmbiz.qpic.cn" = true →
      uploadImageR o env fid (tokResp.access_token.getD "") (some "cover.jpg")
        = Except.ok covResp →
      covResp.media_id ≠ "" →
      ∀ envL s, ExtCall.draftCall (tokResp.access_token.getD "") title html covResp.media_id
        ∈ ((publishToDraft o env parseDom title content cover appid appsecret
          envL s).2).calls) ∧
    (cover = "" → strStartsWith fid "https://mmbiz.qpic.cn" = false → fid ≠ "" →
      ∀ envL s, ExtCall.draftCall (tokResp.access_token.getD "") title html fid
        ∈ ((publishToDraft o env parseDom title content cover appid appsecret
          envL s).2).calls) := by
  have hfstTok : FstConst (fetchAccessToken o env appid appsecret) (Except.ok tokResp) := by
    rw [← htok]
    exact fetchAccessToken_fst _ _ _ _
  have hfstImg : FstConst
      (uploadImages o env parseDom content (tokResp.access_token.getD ""))
      (Except.ok (html, fid)) := by
    rw [← himg]
    exact uploadImages_fst _ _ _ _ _
  refine ⟨?_, ?_, ?_, ?_⟩
  · rintro rfl rfl
    constructor
    · intro envL s
      rw [publishToDraft_fst o env parseDom title content "" appid appsecret envL s]
      unfold publishToDraftR
      rw [htok]
      simp only [except_ok_bind]
      rw [himg]
      rfl
    · intro envL s
      have hc : CallsSpec (publishToDraft o env parseDom title content "" appid appsecret)
          NoDraft := by
        unfold publishToDraft
        apply nd_bind_ok (fstConst_logM _) (nd_logM _)
        apply nd_bind_ok hfstTok (nd_fetchAccessToken _ _ _ _)
        apply nd_bind_ok hfstImg (nd_uploadImages _ _ _ _ _)
        dsimp only
        rw [if_neg (by decide), if_neg (by decide)]
        apply nd_bind_ok (fstConst_pure' _) (nd_pure' _)
        rw [if_pos (by decide)]
        exact nd_bind (nd_logM _) (fun _ => nd_throw _)
      obtain ⟨δ, h1, h2⟩ := hc envL s
      rw [h1, List.filter_append, noDraft_filter h2, List.append_nil]
  · intro covResp hcov hup hne envL s
    have hfstCov : FstConst
        (uploadImage o env cover (tokResp.access_token.getD "") (some "cover.jpg"))
        (Except.ok covResp) := by
      rw [← hup]
      exact uploadImage_fst _ _ _ _ _
    have hc : CallsSpec (publishToDraft o env parseDom title content cover appid appsecret)
        (fun δ => ExtCall.draftCall (tokResp.access_token.getD "") title html
          covResp.media_id ∈ δ) := by
      unfold publishToDraft
      apply mem_bind_ok (fstConst_logM _) (callsSpec_logM _)
      apply mem_bind_ok hfstTok (nd_fetchAccessToken _ _ _ _)
      apply mem_bind_ok hfstImg (nd_uploadImages _ _ _ _ _)
      dsimp only
      rw [if_pos (show (!cover.isEmpty) = true by
        rw [isEmpty_false_of_ne hcov]; rfl)]
      apply mem_bind_ok hfstCov (nd_uploadImage _ _ _ _ _)
      apply mem_bind_ok (fstConst_pure' _) (callsSpec_pure' _)
      rw [if_neg (show ¬(covResp.media_id.isEmpty = true) by
        rw [isEmpty_false_of_ne hne]; simp)]
      exact mem_bind_left (mem_callExt _ _) draftHandler_calls_nil
    obtain ⟨δ, h1, h2⟩ := hc envL s
    rw [h1]
    exact List.mem_append_right _ h2
  · rintro covResp rfl hcdn hup hne envL s
    have hfstCov : FstConst
        (uploadImage o env fid (tokResp.access_token.getD "") (some "cover.jpg"))
        (Except.ok covResp) := by
      rw [← hup]
      exact uploadImage_fst _ _ _ _ _
    have hc : CallsSpec (publishToDraft o env parseDom title content "" appid appsecret)
        (fun δ => ExtCall.draftCall (tokResp.access_token.getD "") title html
          covResp.media_id ∈ δ) := by
      unfold publishToDraft
      apply mem_bind_ok (fstConst_logM _) (callsSpec_logM _)
      apply mem_bind_ok hfstTok (nd_fetchAccessToken _ _ _ _)
      apply mem_bind_ok hfstImg (nd_uploadImages _ _ _ _ _)
      dsimp only
      rw [if_neg (by decide), if_pos hcdn]
      apply mem_bind_ok hfstCov (nd_uploadImage _ _ _ _ _)
      apply mem_bind_ok (fstConst_pure' _) (callsSpec_pure' _)
      rw [if_neg (show ¬(covResp.media_id.isEmpty = true) by
        rw [isEmpty_false_of_ne hne]; simp)]
      exact mem_bind_left (mem_callExt _ _) draftHandler_calls_nil
    obtain ⟨δ, h1, h2⟩ := hc envL s
    rw [h1]
    exact List.mem_append_right _ h2
  · rintro rfl hcdn hfid envL s
    have hc : CallsSpec (publishToDraft o env parseDom title content "" appid appsecret)
        (fun δ => ExtCall.draftCall (tokResp.access_token.getD "") title html fid ∈ δ) := by
      unfold publishToDraft
      apply mem_bind_ok (fstConst_logM _) (callsSpec_logM _)
      apply mem_bind_ok hfstTok (nd_fetchAccessToken _ _ _ _)
      apply mem_bind_ok hfstImg (nd_uploadImages _ _ _ _ _)
      dsimp only
      rw [if_neg (by decide), if_neg (by simp [hcdn])]
      apply mem_bind_ok (fstConst_pure' _) (callsSpec_pure' _)
      rw [if_neg (show ¬(fid.isEmpty = true) by
        rw [isEmpty_false_of_ne hfid]; simp)]
      exact mem_bind_left (mem_callExt _ _) draftHandler_calls_nil
    obtain ⟨δ, h1, h2⟩ := hc envL s
    rw [h1]
    exact List.mem_append_right _ h2

/-- C1, witness: with no cover and no embedded image the publish fails
with the missing-cover error; with the explicit local cover `c.jpg` the
draft-creation request is submitted with the uploaded media id `m1`
(through `c1_publishToDraft_cover`). -/
theorem c1_publishToDraft_cover_witness :
    fetchAccessTokenR okOracles envNone none none = Except.ok ⟨some "T", none, ""⟩ ∧
    uploadImagesR okOracles envNone constParse "hello" "T" = Except.ok ("hello", "") ∧
    (publishToDraft okOracles envNone constParse "t" "hello" "" none none envOk
      WorldSt.init).1 = Except.error PubErr.missingCover ∧
    ExtCall.draftCall "T" "t" "hello" "m1"
      ∈ ((publishToDraft okOracles envNone constParse "t" "hello" "c.jpg" none none envOk
          WorldSt.init).2).calls := by
  have h := c1_publishToDraft_cover okOracles envNone constParse "t" "hello" "" none none
    ⟨some "T", none, ""⟩ "hello" "" rfl rfl
  have h2 := c1_publishToDraft_cover okOracles envNone constParse "t" "hello" "c.jpg"
    none none ⟨some "T", none, ""⟩ "hello" "" rfl rfl
  exact ⟨rfl, rfl, (h.1 rfl rfl).1 envOk WorldSt.init,
    h2.2.1 ⟨none, "", "m1", "https://a/?u=https://b"⟩ (by decide) (by rfl) (by decide)
      envOk WorldSt.init⟩

theorem draftsTitled_append {t : String} {δ₁ δ₂ : List ExtCall}
    (h1 : DraftsTitled t δ₁) (h2 : DraftsTitled t δ₂) : DraftsTitled t (δ₁ ++ δ₂) := by
  intro c hc
  rcases List.mem_append.mp hc with h | h
  · exact h1 c h
  · exact h2 c h

theorem dt_of_nd {t : String} {m : PubM α} (h : CallsSpec m NoDraft) :
    CallsSpec m (DraftsTitled t) := by
  apply callsSpec_mono h
  intro δ hδ c hc hdraft
  rw [hδ c hc] at hdraft
  cases hdraft

theorem dt_bind {t : String} {m : PubM α} {k : α → PubM β}
    (hm : CallsSpec m (DraftsTitled t)) (hk : ∀ a, CallsSpec (k a) (DraftsTitled t)) :
    CallsSpec (m >>= k) (DraftsTitled t) := by
  apply callsSpec_mono (callsSpec_bind hm hk)
  rintro δ ⟨δ₁, δ₂, rfl, h1, h2 | rfl⟩
  · exact draftsTitled_append h1 h2
  · simpa using h1

theorem dt_callExt_draft (tok t c th : String) (a : α) :
    CallsSpec (callExt (ExtCall.draftCall tok t c th) a) (DraftsTitled t) := by
  apply callsSpec_mono (callsSpec_callExt _ a)
  rintro δ rfl c' hc' _
  rcases List.mem_singleton.mp hc' with rfl
  rfl

/-- Every draft-creation request issued by `publishToDraft` carries the
`title` argument it was invoked with, in every branch, whatever the
oracles answer. -/
theorem dt_publishToDraft (o : Oracles) (env : Env) (parseDom : String → DomDoc)
    (title content cover : String) (appid appsecret : Option String) :
    CallsSpec (publishToDraft o env parseDom title content cover appid appsecret)
      (DraftsTitled title) := by
  unfold publishToDraft
  apply dt_bind (dt_of_nd (nd_logM _))
  intro _
  apply dt_bind (dt_of_nd (nd_fetchAccessToken _ _ _ _))
  intro accessToken
  apply dt_bind (dt_of_nd (nd_uploadImages _ _ _ _ _))
  intro hf
  dsimp only
  have hrest : ∀ thumbMediaId : String, CallsSpec
      (if thumbMediaId.isEmpty = true then do
        logM "No cover image found"
        PubM.throw PubErr.missingCover
      else do
        let data ← callExt
          (ExtCall.draftCall (accessToken.access_token.getD "") title hf.1 thumbMediaId)
          (o.draft (accessToken.access_token.getD "") title hf.1 thumbMediaId)
        if jsTruthy data.media_id = true then do
          logM "Draft published"
          pure data
        else if jsTruthyCode data.errcode = true then do
          logM "Draft publish error"
          PubM.throw (PubErr.draftApiError (data.errcode.getD 0) data.errmsg)
        else do
          logM "Draft publish unknown error"
          PubM.throw PubErr.draftUnexpected)
      (DraftsTitled title) := by
    intro thumbMediaId
    by_cases h3 : thumbMediaId.isEmpty
    · simp only [h3, if_true]
      exact dt_bind (dt_of_nd (nd_logM _)) (fun _ => dt_of_nd (nd_throw _))
    · simp only [h3, Bool.false_eq_true, if_false]
      apply dt_bind (dt_callExt_draft _ _ _ _ _)
      intro data
      exact dt_of_nd (nd_of_eq_nil (draftHandler_calls_nil data))
  by_cases h1 : (!cover.isEmpty) = true
  · simp only [h1, if_true]
    apply dt_bind (dt_of_nd (nd_uploadImage _ _ _ _ _))
    intro resp
    exact dt_bind (dt_of_nd (nd_pure' _)) (fun y => hrest y)
  · simp only [h1, Bool.false_eq_true, if_false]
    by_cases h2 : strStartsWith hf.2 "https://mmbiz.qpic.cn"
    · simp only [h2, if_true]
      apply dt_bind (dt_of_nd (nd_uploadImage _ _ _ _ _))
      intro resp
      exact dt_bind (dt_of_nd (nd_pure' _)) (fun y => hrest y)
    · simp only [h2, Bool.false_eq_true, if_false]
      exact dt_bind (dt_of_nd (nd_pure' _)) (fun y => hrest y)

/-- `catchLogRethrow` adds no remote call: its trace is that of the body. -/
theorem callsSpec_catchLogRethrow {m : PubM α} {P : List ExtCall → Prop} {msg : String}
    (hm : CallsSpec m P) : CallsSpec (catchLogRethrow m msg) P := by
  intro env s
  obtain ⟨δ, h1, h2⟩ := hm env s
  unfold catchLogRethrow
  rcases hr : m env s with ⟨r₁, s₁⟩
  rw [hr] at h1
  cases r₁ with
  | ok a => exact ⟨δ, h1, h2⟩
  | error e =>
    refine ⟨δ, ?_, h2⟩
    show (((logM msg).bind (fun _ => PubM.throw e)) env s₁).2.calls = s.calls ++ δ
    unfold PubM.bind logM PubM.throw
    by_cases h : env s₁.logIndex <;> simp [h] <;> simpa using h1

/-- C9: when the front matter yields no title, every draft-creation
request issued by the `publish_article` handler carries the literal title
`this is title`, and the handler's result — success text or thrown error —
is indistinguishable from that of a run whose front matter had explicitly
carried that title (no error, no indication of the substitution). -/
theorem c9_placeholder_title (deps : RenderDeps) (o : Oracles) (env : Env)
    (parseDom : String → DomDoc) (themes : ThemeRegistry) (args : PublishArgs)
    (pre : ParsedArticle)
    (hfm : deps.handleFrontMatter (jsOrOpt args.content "") = pre)
    (htitle : pre.title = none) :
    (∀ envL s, ∃ δ, ((callToolPublish deps o env parseDom themes args envL s).2).calls
        = s.calls ++ δ ∧ DraftsTitled "this is title" δ) ∧
    (∀ envL s, (callToolPublish deps o env parseDom themes args envL s).1
      = (callToolPublish
          ⟨fun c => ⟨some "this is title", (deps.handleFrontMatter c).cover,
            (deps.handleFrontMatter c).body⟩, deps.renderMarkdown⟩
          o env parseDom themes args envL s).1) := by
  constructor
  · have hc : CallsSpec (callToolPublish deps o env parseDom themes args)
        (DraftsTitled "this is title") := by
      unfold callToolPublish
      apply dt_bind (dt_of_nd (nd_logM _))
      intro _
      rcases hsel : selectTheme themes (jsOrOpt args.theme_id "") with _ | theme
      · simp only [hsel]
        exact dt_bind (dt_of_nd (nd_logM _)) (fun _ => dt_of_nd (nd_throw _))
      · simp only [hsel]
        rw [hfm, htitle]
        simp only [Option.getD_none]
        apply dt_bind (dt_of_nd (nd_logM _))
        intro _
        apply dt_bind (dt_of_nd (nd_logM _))
        intro _
        apply callsSpec_catchLogRethrow
        apply dt_bind (dt_publishToDraft _ _ _ _ _ _ _ _)
        intro response
        exact dt_bind (dt_of_nd (nd_logM _)) (fun _ => dt_of_nd (nd_pure _))
    exact fun envL s => hc envL s
  · intro envL s
    rw [callToolPublish_fst deps o env parseDom themes args envL s,
      callToolPublish_fst _ o env parseDom themes args envL s]
    unfold callToolPublishR
    rcases hsel : selectTheme themes (jsOrOpt args.theme_id "") with _ | theme
    · simp only [hsel]
    · simp only [hsel]
      rw [hfm, htitle]
      simp only [Option.getD_none, Option.getD_some]

/-- C9, witness: front matter without a title through
`c9_placeholder_title` — a concrete run in which the single issued
draft-creation request carries the literal title. -/
theorem c9_placeholder_title_witness :
    constDeps.handleFrontMatter (jsOrOpt (some "md") "") = ⟨none, none, "body"⟩ ∧
    (∃ δ, ((callToolPublish constDeps okOracles envNone constParse themesW
        ⟨some "md", none, none, none⟩ envOk WorldSt.init).2).calls
      = WorldSt.init.calls ++ δ ∧ DraftsTitled "this is title" δ) := by
  refine ⟨rfl, ?_⟩
  exact (c9_placeholder_title constDeps okOracles envNone constParse themesW
    ⟨some "md", none, none, none⟩ ⟨none, none, "body"⟩ rfl rfl).1 envOk WorldSt.init

theorem processImgR_ok (o : Oracles) (env : Env) (accessToken : String)
    (ur : String → UploadJson)
    (hups : ∀ u, uploadImageR o env u accessToken none = Except.ok (ur u))
    (src : Option String) :
    processImgR o env accessToken src
      = Except.ok (rewriteSrc ur src, contribOf ur src) := by
  unfold processImgR rewriteSrc contribOf
  by_cases h1 : jsTruthy src
  · simp only [h1, if_true]
    by_cases h2 : !(strStartsWith (src.getD "") "https://mmbiz.qpic.cn")
    · simp only [h2, if_true]
      rw [hups (src.getD "")]
      rfl
    · simp only [h2, Bool.false_eq_true, if_false]
  · simp only [h1, Bool.false_eq_true, if_false]

theorem uploadImagesLoopR_ok (o : Oracles) (env : Env) (accessToken : String)
    (ur : String → UploadJson)
    (hups : ∀ u, uploadImageR o env u accessToken none = Except.ok (ur u)) :
    ∀ srcs : List (Option String), uploadImagesLoopR o env accessToken srcs
      = Except.ok (srcs.map (rewriteSrc ur), srcs.map (contribOf ur)) := by
  intro srcs
  induction srcs with
  | nil => rfl
  | cons src rest ih =>
    show uploadImagesLoopR o env accessToken (src :: rest) = _
    unfold uploadImagesLoopR
    rw [processImgR_ok o env accessToken ur hups src, except_ok_bind, ih, except_ok_bind]
    rfl

/-- Falsy `src` attributes contribute nothing to the media-id list. -/
theorem filterMap_contrib_nil (ur : String → UploadJson) :
    ∀ pre : List (Option String), (∀ x ∈ pre, jsTruthy x = false) →
      (pre.map (contribOf ur)).filterMap id = [] := by
  intro pre
  induction pre with
  | nil => intro _; rfl
  | cons x xs ih =>
    intro hpre
    have hx : contribOf ur x = none := by
      unfold contribOf
      simp only [hpre x (List.mem_cons_self x xs), Bool.false_eq_true, if_false]
    simp only [List.map_cons, List.filterMap_cons, hx]
    exact ih (fun y hy => hpre y (List.mem_cons_of_mem x hy))

/-- C6: with at least one `<img>` element carrying a (non-empty) `src`
attribute — hence the content contains the substring `<img` and the guard
passes — and with every upload succeeding with a non-empty media id, the
fallback id returned by `uploadImages` is determined by document order:
for the first element with a truthy `src` `d` it is `d` itself when `d`
is CDN-hosted (prefix `https://mmbiz.qpic.cn`), else the uploaded media
id of `d`; and the serialized document carries each CDN-hosted or falsy
`src` unmodified while every other `src` is rewritten to its uploaded
URL (`rewriteSrc`). -/
theorem c6_uploadImages_document_order (o : Oracles) (env : Env)
    (parseDom : String → DomDoc) (content accessToken : String)
    (ur : String → UploadJson) (pre rest : List (Option String)) (d : String)
    (hsub : strIncludes content "<img" = true)
    (hups : ∀ u, uploadImageR o env u accessToken none = Except.ok (ur u))
    (hsplit : (parseDom content).imgSrcs = pre ++ some d :: rest)
    (hpre : ∀ x ∈ pre, jsTruthy x = false)
    (hd : d ≠ "")
    (hne : (ur d).media_id ≠ "") :
    (∀ envL s, (uploadImages o env parseDom content accessToken envL s).1
      = Except.ok ((parseDom content).serializeWith
          (((parseDom content).imgSrcs).map (rewriteSrc ur)),
        if strStartsWith d "https://mmbiz.qpic.cn" = true then d
        else (ur d).media_id)) ∧
    (∀ src : Option String, jsTruthy src = true →
      strStartsWith (src.getD "") "https://mmbiz.qpic.cn" = true →
      rewriteSrc ur src = src) ∧
    (∀ src : Option String, jsTruthy src = true →
      strStartsWith (src.getD "") "https://mmbiz.qpic.cn" = false →
      rewriteSrc ur src = some (ur (src.getD "")).url) := by
  refine ⟨?_, ?_, ?_⟩
  · intro envL s
    rw [uploadImages_fst o env parseDom content accessToken envL s]
    unfold uploadImagesR
    simp only [hsub, Bool.not_true, Bool.false_eq_true, if_false]
    rw [hsplit, uploadImagesLoopR_ok o env accessToken ur hups, except_ok_bind]
    have htr : jsTruthy (some d) = true := by
      simp [jsTruthy, isEmpty_false_of_ne hd]
    have hprenil : (pre.map (contribOf ur)).filterMap id = [] :=
      filterMap_contrib_nil ur pre hpre
    have hc : contribOf ur (some d)
        = some (if strStartsWith d "https://mmbiz.qpic.cn" = true then d
            else (ur d).media_id) := by
      unfold contribOf
      simp only [htr, if_true, Option.getD_some]
      by_cases h2 : strStartsWith d "https://mmbiz.qpic.cn"
      · simp only [h2, Bool.not_true, Bool.false_eq_true, if_false, if_true]
      · simp only [h2, Bool.false_eq_true, if_false, Bool.not_false, if_true]
    have hc0ne : (if strStartsWith d "https://mmbiz.qpic.cn" = true then d
        else (ur d).media_id) ≠ "" := by
      by_cases h2 : strStartsWith d "https://mmbiz.qpic.cn" = true
      · simpa [h2] using hd
      · simpa [h2] using hne
    simp only [List.map_append, List.map_cons, List.filterMap_append, hprenil,
      List.filterMap_cons, hc, List.nil_append, id_eq, List.filter_cons,
      isEmpty_false_of_ne hc0ne, Bool.not_false, if_true, List.head?_cons]
    unfold jsOrOpt
    simp only [isEmpty_false_of_ne hc0ne, Bool.false_eq_true, if_false]
  · intro src h1 h2
    unfold rewriteSrc
    simp only [h1, if_true, h2, Bool.not_true, Bool.false_eq_true, if_false]
  · intro src h1 h2
    unfold rewriteSrc
    simp only [h1, if_true, h2, Bool.not_false, if_true]

/-- C6, witness: a document whose single image has the local `src`
`/pic/a.png` through `c6_uploadImages_document_order` — the `src` is
rewritten to the uploaded URL and the fallback id is the uploaded media
id `m1`. -/
theorem c6_uploadImages_document_order_witness :
    strIncludes "<img src=x>" "<img" = true ∧
    (parseW "<img src=x>").imgSrcs = [] ++ some "/pic/a.png" :: [] ∧
    (uploadImages okOracles envNone parseW "<img src=x>" "T" envOk WorldSt.init).1
      = Except.ok ("https://a/?u=https://b", "m1") := by
  have hups : ∀ u, uploadImageR okOracles envNone u "T" none = Except.ok (urW u) := by
    intro u
    by_cases h : strStartsWith u "http" = true
    · simp only [uploadImageR, h, if_true]
      rfl
    · simp only [uploadImageR, h, Bool.false_eq_true, if_false]
      rfl
  have h := c6_uploadImages_document_order okOracles envNone parseW "<img src=x>" "T" urW
    [] [] "/pic/a.png" (by decide) hups rfl (by intro x hx; cases hx) (by decide) (by decide)
  refine ⟨by decide, rfl, ?_⟩
  exact (h.1 envOk WorldSt.init).trans (by rfl)

end Wenyan
